import Mathlib

/-!
About page script (`src/assets/js/about-script.js`)

A shallow embedding of the viewport-driven synchronisation code of the about
page: the two scheduler wrappers (`debounce`, `rafThrottle`), the section
activation pass (`updateActiveLink`), the counter animation (`animateCounter`)
and the sticky image selection (`updateStickyIcon`).

Pixel lengths and timestamps are JavaScript numbers in the source; they are
modelled as rationals (`ℚ`), which keeps `+`, `-`, `/`, `min`, `max`, `abs`,
`floor` and the comparisons exact and executable.
-/

namespace AboutScript

/-! ## 1. Section activation (`initSubnavigation`) -/

/-- The object returned by `getLayoutMetrics`. -/
structure LayoutMetrics where
  headerHeight : ℚ
  subnavHeight : ℚ
  buffer : ℚ
deriving DecidableEq

/-- A section element: its `id`, `offsetTop` and `offsetHeight`. -/
structure Section where
  id : String
  offsetTop : ℚ
  offsetHeight : ℚ
deriving DecidableEq

/-- A sub-navigation link: `getAttribute('href')` (absent = `none`), whether
`classList` holds `is-active`, and the `aria-current` attribute (absent = `none`). -/
structure NavLink where
  href : Option String
  isActive : Bool
  ariaCurrent : Option String
deriving DecidableEq

/-- `header?.offsetHeight || fallback`: a missing element and the height `0`
both yield the fallback. -/
def heightOr (h : Option ℚ) (fallback : ℚ) : ℚ :=
  match h with
  | none => fallback
  | some v => if v = 0 then fallback else v

/-- `getLayoutMetrics`, from the `offsetHeight` of `.header` and of
`.subnav-wrapper` when these elements exist. -/
def getLayoutMetrics (header subnav : Option ℚ) : LayoutMetrics :=
  { headerHeight := heightOr header 80
    subnavHeight := heightOr subnav 60
    buffer := 50 }

/-- The value `scrollPos` of `updateActiveLink`. -/
def effectiveScrollPos (scrollY : ℚ) (metrics : LayoutMetrics) : ℚ :=
  scrollY + metrics.headerHeight + metrics.subnavHeight + metrics.buffer

/-- The test `scrollPos >= sectionTop && scrollPos < sectionBottom`. -/
def isCandidate (scrollPos : ℚ) (s : Section) : Prop :=
  scrollPos ≥ s.offsetTop ∧ scrollPos < s.offsetTop + s.offsetHeight

instance (scrollPos : ℚ) (s : Section) : Decidable (isCandidate scrollPos s) := by
  unfold isCandidate
  exact inferInstance

/-- The score `Math.min(sectionBottom, scrollPos + innerHeight) -
Math.max(sectionTop, scrollPos)`. -/
def visibility (scrollPos innerHeight : ℚ) (s : Section) : ℚ :=
  min (s.offsetTop + s.offsetHeight) (scrollPos + innerHeight) - max s.offsetTop scrollPos

/-- One iteration of `sections.forEach` in `updateActiveLink`; the accumulator
is the pair `(activeSection, maxVisibility)`. -/
def sectionStep (scrollPos innerHeight : ℚ) (acc : Option Section × ℚ) (s : Section) :
    Option Section × ℚ :=
  if isCandidate scrollPos s then
    if visibility scrollPos innerHeight s > acc.2 then
      (some s, visibility scrollPos innerHeight s)
    else acc
  else acc

/-- The value of `activeSection` after the loop, started from `null` and
`maxVisibility = 0`. -/
def findActiveSection (scrollPos innerHeight : ℚ) (sections : List Section) : Option Section :=
  (sections.foldl (sectionStep scrollPos innerHeight) (none, 0)).1

/-- The body of `links.forEach` for one link, given `activeId`. -/
def markLink (activeId : String) (link : NavLink) : NavLink :=
  let isActive : Bool := decide (link.href = some activeId)
  { link with
    isActive := isActive
    ariaCurrent := if isActive then some "location" else none }

/-- One pass of `updateActiveLink`: the links after the pass. -/
def updateActiveLink (scrollY innerHeight : ℚ) (metrics : LayoutMetrics)
    (sections : List Section) (links : List NavLink) : List NavLink :=
  let scrollPos := effectiveScrollPos scrollY metrics
  match findActiveSection scrollPos innerHeight sections with
  | none => links
  | some activeSection => links.map (markLink ("#" ++ activeSection.id))

/-- A link shown as the current location: `is-active` and `aria-current="location"`. -/
def NavLink.shownActive (l : NavLink) : Prop :=
  l.isActive = true ∧ l.ariaCurrent = some "location"

/-- A link shown as not current: no `is-active`, no `aria-current`. -/
def NavLink.shownInactive (l : NavLink) : Prop :=
  l.isActive = false ∧ l.ariaCurrent = none

/-! ## 2. Sticky image selection (`initStickyIcons`) -/

/-- The two fields of `getBoundingClientRect()` that the code reads. -/
structure DOMRect where
  top : ℚ
  height : ℚ
deriving DecidableEq

/-- A `.story-stage` element: its `id` and its bounding rectangle. -/
structure StoryStage where
  id : String
  rect : DOMRect
deriving DecidableEq

/-- A `.sticky-image` element: `dataset.imageFor` (absent = `none`), whether
`classList` holds `is-active`, and the `aria-hidden` attribute (absent = `none`). -/
structure StickyImage where
  imageFor : Option String
  isActive : Bool
  ariaHidden : Option String
deriving DecidableEq

/-- The expression `rect.top + (rect.height / 2)`. -/
def rectCenter (r : DOMRect) : ℚ :=
  r.top + r.height / 2

/-- The value `distance` of a stage: `Math.abs(stickyCenter - stageCenter)`. -/
def stageDistance (stickyCenter : ℚ) (stage : StoryStage) : ℚ :=
  |stickyCenter - rectCenter stage.rect|

/-- The test `distance < minDistance`, where `minDistance` is `none` while it
still holds its initial value `Infinity`. -/
def belowMin (distance : ℚ) (minDistance : Option ℚ) : Prop :=
  match minDistance with
  | none => True
  | some m => distance < m

instance (distance : ℚ) (minDistance : Option ℚ) : Decidable (belowMin distance minDistance) := by
  unfold belowMin
  cases minDistance <;> exact inferInstance

/-- One iteration of `storyStages.forEach`; the accumulator is the pair
`(closestStage, minDistance)`. -/
def stageStep (stickyCenter : ℚ) (acc : Option StoryStage × Option ℚ) (stage : StoryStage) :
    Option StoryStage × Option ℚ :=
  if belowMin (stageDistance stickyCenter stage) acc.2 then
    (some stage, some (stageDistance stickyCenter stage))
  else acc

/-- The value of `closestStage` after the loop, started from `null` and
`minDistance = Infinity`. -/
def findClosestStage (stickyRect : DOMRect) (stages : List StoryStage) : Option StoryStage :=
  (stages.foldl (stageStep (rectCenter stickyRect)) (none, none)).1

/-- The body of `stickyImages.forEach` for one image: `setAttribute` stores the
boolean `!shouldBeActive` as the string `"true"` or `"false"`. -/
def setImage (activeStageId : String) (img : StickyImage) : StickyImage :=
  let shouldBeActive : Bool := decide (img.imageFor = some activeStageId)
  { img with
    isActive := shouldBeActive
    ariaHidden := some (if shouldBeActive then "false" else "true") }

/-- One pass of `updateStickyIcon`: the images after the pass. -/
def updateStickyIcon (stickyRect : DOMRect) (stages : List StoryStage)
    (images : List StickyImage) : List StickyImage :=
  match findClosestStage stickyRect stages with
  | none => images
  | some closestStage => images.map (setImage closestStage.id)

/-! ## 3. Counter animation (`initCounters`) -/

/-- The constant `duration` of `initCounters`, in milliseconds. -/
def duration : ℚ := 1200

/-- The function `easeOutCubic`: `t => 1 - Math.pow(1 - t, 3)`. -/
def easeOutCubic (t : ℚ) : ℚ :=
  1 - (1 - t) ^ 3

/-- The effect of `if (!startTime) startTime = currentTime;` on the closure
variable `startTime` (`null` = `none`): `!startTime` holds for `null` and also
for the number `0`. -/
def startOr (startTime : Option ℚ) (currentTime : ℚ) : ℚ :=
  match startTime with
  | none => currentTime
  | some v => if v = 0 then currentTime else v

/-- What one call of `step` leaves behind: the closure variable `startTime`,
the number last written to `element.textContent` (the source writes its
`toLocaleString('tr-TR')` rendering), and whether `requestAnimationFrame(step)`
was called. -/
structure CounterFrame where
  startTime : Option ℚ
  displayed : ℤ
  requestsFrame : Bool
deriving DecidableEq

/-- The function `step` of `animateCounter`, for a parsed `target`, the current
`startTime` and the frame timestamp `currentTime`. -/
def step (target : ℤ) (startTime : Option ℚ) (currentTime : ℚ) : CounterFrame :=
  let start := startOr startTime currentTime
  let progress := min ((currentTime - start) / duration) 1
  let easedProgress := easeOutCubic progress
  let currentValue := ⌊easedProgress * (target : ℚ)⌋
  if progress < 1 then
    { startTime := some start, displayed := currentValue, requestsFrame := true }
  else
    { startTime := some start, displayed := target, requestsFrame := false }

/-- The frames of one counter: `step` runs at each timestamp in turn for as
long as the previous call requested another frame. -/
def runFrames (target : ℤ) : Option ℚ → List ℚ → List CounterFrame
  | _, [] => []
  | startTime, t :: ts =>
    let f := step target startTime t
    f :: (if f.requestsFrame then runFrames target f.startTime ts else [])

/-- `animateCounter` for an element whose `data-target` parses to `target`
(`none` when `parseInt` gives `NaN`: the element is skipped, no frame runs).
The first call of `step` finds `startTime = null`. -/
def animateCounter (target : Option ℤ) (timestamps : List ℚ) : List CounterFrame :=
  match target with
  | none => []
  | some n => runFrames n none timestamps

/-- The counter value as the specification words it: with `elapsed` measured
from the first frame's timestamp `firstTime` and `progress = min(elapsed /
1200, 1)`, the displayed value and whether another frame is requested. -/
def specFrame (target : ℤ) (firstTime currentTime : ℚ) : ℤ × Bool :=
  let progress := min ((currentTime - firstTime) / 1200) 1
  if progress < 1 then (⌊(1 - (1 - progress) ^ 3) * (target : ℚ)⌋, true) else (target, false)

/-- The frames as the specification words them: `specFrame` at each timestamp,
with `elapsed` always measured from `firstTime`, until no frame is requested. -/
def specFrames (target : ℤ) (firstTime : ℚ) : List ℚ → List (ℤ × Bool)
  | [] => []
  | t :: ts =>
    let f := specFrame target firstTime t
    f :: (if f.2 then specFrames target firstTime ts else [])

/-! ## 4. Scheduler wrappers (`debounce`, `rafThrottle`)

The wrapped function is a side effect on the rest of the page. It is modelled
as a function on a world state `σ` that also returns a value of type `β`; the
wrappers themselves never appear in `σ` (in the source no wrapped function
calls its own wrapper). Times are in whole milliseconds. -/

/-- A pending host timer created by `setTimeout(later, wait)`: its id, the time
at which it is due, and the `args` captured by the closure `later`. -/
structure Timer (α : Type) where
  id : ℕ
  deadline : ℕ
  args : α
deriving DecidableEq

/-- The state of one `debounce(func, wait)` closure together with the host
timers it has created: the variable `timeout` (`undefined` = `none`), the
pending timers, and the id the next `setTimeout` will return. -/
structure Debounce (α : Type) where
  timeout : Option ℕ
  timers : List (Timer α)
  nextId : ℕ
deriving DecidableEq

/-- A fresh closure: `let timeout;` and no timer. -/
def Debounce.init (α : Type) : Debounce α :=
  { timeout := none, timers := [], nextId := 1 }

/-- The host call `clearTimeout(id)`: removes the timer of that id, and does
nothing for `undefined` or for an id that is not pending. -/
def clearTimeout {α : Type} (id : Option ℕ) (timers : List (Timer α)) : List (Timer α) :=
  match id with
  | none => timers
  | some i => timers.filter (fun tm => decide (tm.id ≠ i))

/-- The wrapper `executedFunction(...args)` called at time `now`:
`clearTimeout(timeout); timeout = setTimeout(later, wait);`. The body has no
`return`: the call evaluates to `undefined` (`none`) whatever `func` returns. -/
def Debounce.executedFunction {α σ β : Type} (_func : α → σ → σ × β) (wait now : ℕ) (args : α)
    (d : Debounce α) : Debounce α × Option β :=
  ({ timeout := some d.nextId
     timers := clearTimeout d.timeout d.timers ++ [{ id := d.nextId, deadline := now + wait, args := args }]
     nextId := d.nextId + 1 }, none)

/-- The closure `later` of a timer, run by the host when the timer fires:
`clearTimeout(timeout); func(...args);` (the value of `func` is dropped). -/
def Debounce.later {α σ β : Type} (func : α → σ → σ × β) (tm : Timer α)
    (st : Debounce α × σ) : Debounce α × σ :=
  ({ st.1 with timers := clearTimeout st.1.timeout st.1.timers }, (func tm.args st.2).1)

/-- The host fires one timer: if it is still pending it leaves the timer list
and its closure runs. -/
def Debounce.fireTimer {α σ β : Type} (func : α → σ → σ × β)
    (st : Debounce α × σ) (tm : Timer α) : Debounce α × σ :=
  if st.1.timers.any (fun x => decide (x.id = tm.id)) then
    Debounce.later func tm
      ({ st.1 with timers := st.1.timers.filter (fun x => decide (x.id ≠ tm.id)) }, st.2)
  else st

/-- The host clock reaches `now`: every timer due by then fires, earliest first. -/
def Debounce.advance {α σ β : Type} (func : α → σ → σ × β) (now : ℕ)
    (st : Debounce α × σ) : Debounce α × σ :=
  (((st.1.timers.filter (fun tm => decide (tm.deadline ≤ now))).insertionSort
      (fun a b => a.deadline ≤ b.deadline)).foldl (Debounce.fireTimer func) st)

/-- An invocation of the wrapper at time `now`: the timers due by then have
fired, then `executedFunction` runs. -/
def Debounce.invokeAt {α σ β : Type} (func : α → σ → σ × β) (wait : ℕ)
    (st : Debounce α × σ) (call : ℕ × α) : Debounce α × σ :=
  ((Debounce.executedFunction func wait call.1 call.2 (Debounce.advance func call.1 st).1).1,
    (Debounce.advance func call.1 st).2)

/-- A sequence of invocations `(time, args)`, in the order they are made. -/
def Debounce.runCalls {α σ β : Type} (func : α → σ → σ × β) (wait : ℕ)
    (st : Debounce α × σ) (calls : List (ℕ × α)) : Debounce α × σ :=
  calls.foldl (Debounce.invokeAt func wait) st

/-- A burst: each invocation is made less than `wait` ms after the previous one. -/
def IsBurst {α : Type} (wait : ℕ) (first : ℕ × α) (rest : List (ℕ × α)) : Prop :=
  List.Chain (fun x y => x.1 ≤ y.1 ∧ y.1 < x.1 + wait) first rest

/-- A wrapped function that records its arguments: the world is the list of
the argument strings `func` has been executed with, oldest first. -/
def recordCall (args : String) (log : List String) : List String × Unit :=
  (log ++ [args], ())

/-- The state of one `rafThrottle(callback)` closure together with the host
frame requests it has made: the variables `requestId` (`null` = `none`) and
`lastArgs` (`undefined` = `none`), the pending frame requests (id and the
`context` captured by `later(this)`), and the id the next
`requestAnimationFrame` will return. -/
structure Throttle (α γ : Type) where
  requestId : Option ℕ
  lastArgs : Option α
  frames : List (ℕ × γ)
  nextId : ℕ
deriving DecidableEq

/-- A fresh closure: `let requestId = null; let lastArgs;` and no frame request. -/
def Throttle.init (α γ : Type) : Throttle α γ :=
  { requestId := none, lastArgs := none, frames := [], nextId := 1 }

/-- The host call `cancelAnimationFrame(id)`: removes the request of that id,
and does nothing for `null` or for an id that is not pending. -/
def cancelAnimationFrame {γ : Type} (id : Option ℕ) (frames : List (ℕ × γ)) : List (ℕ × γ) :=
  match id with
  | none => frames
  | some i => frames.filter (fun fr => decide (fr.1 ≠ i))

/-- The wrapper `throttled(...args)` called with `this = context`:
`lastArgs = args; if (requestId === null) requestId = requestAnimationFrame(later(this));`. -/
def Throttle.throttled {α γ : Type} (context : γ) (args : α) (t : Throttle α γ) : Throttle α γ :=
  if t.requestId = none then
    { requestId := some t.nextId
      lastArgs := some args
      frames := t.frames ++ [(t.nextId, context)]
      nextId := t.nextId + 1 }
  else
    { t with lastArgs := some args }

/-- The closure `later(context)`, run by the host at the frame boundary:
`requestId = null; callback.apply(context, lastArgs);`. -/
def Throttle.later {α γ σ β : Type} (callback : γ → Option α → σ → σ × β) (context : γ)
    (st : Throttle α γ × σ) : Throttle α γ × σ :=
  ({ st.1 with requestId := none }, (callback context st.1.lastArgs st.2).1)

/-- The method `throttled.cancel()`: `cancelAnimationFrame(requestId); requestId = null;`. -/
def Throttle.cancel {α γ : Type} (t : Throttle α γ) : Throttle α γ :=
  { t with frames := cancelAnimationFrame t.requestId t.frames, requestId := none }

/-- The host runs one frame request: if it is still pending it leaves the list
and its closure runs. -/
def Throttle.fireFrame {α γ σ β : Type} (callback : γ → Option α → σ → σ × β)
    (st : Throttle α γ × σ) (fr : ℕ × γ) : Throttle α γ × σ :=
  if st.1.frames.any (fun x => decide (x.1 = fr.1)) then
    Throttle.later callback fr.2
      ({ st.1 with frames := st.1.frames.filter (fun x => decide (x.1 ≠ fr.1)) }, st.2)
  else st

/-- A frame boundary: the host runs the requests that were pending when the
frame began, in the order they were made. -/
def Throttle.runFrame {α γ σ β : Type} (callback : γ → Option α → σ → σ × β)
    (st : Throttle α γ × σ) : Throttle α γ × σ :=
  st.1.frames.foldl (Throttle.fireFrame callback) st

/-- The invocations `(context, args)` made between two frame boundaries, in order. -/
def Throttle.runCalls {α γ : Type} (t : Throttle α γ) (calls : List (γ × α)) : Throttle α γ :=
  calls.foldl (fun t c => Throttle.throttled c.1 c.2 t) t

/-- What can happen to a `rafThrottle` wrapper. -/
inductive ThrottleEvent (α γ : Type) where
  | call (context : γ) (args : α)
  | frame
  | cancel

/-- One event on a wrapper and its world. -/
def Throttle.handle {α γ σ β : Type} (callback : γ → Option α → σ → σ × β)
    (st : Throttle α γ × σ) (e : ThrottleEvent α γ) : Throttle α γ × σ :=
  match e with
  | .call context args => (Throttle.throttled context args st.1, st.2)
  | .frame => Throttle.runFrame callback st
  | .cancel => (Throttle.cancel st.1, st.2)

/-- The states a wrapper can reach: any sequence of events from a fresh closure. -/
def Throttle.run {α γ σ β : Type} (callback : γ → Option α → σ → σ × β) (w : σ)
    (events : List (ThrottleEvent α γ)) : Throttle α γ × σ :=
  events.foldl (Throttle.handle callback) (Throttle.init α γ, w)

/-- A wrapper is idle when `requestId` is `null` and no frame request is pending. -/
def Throttle.Idle {α γ : Type} (t : Throttle α γ) : Prop :=
  t.requestId = none ∧ t.frames = []

/-- A wrapper is either idle or has exactly one pending frame request, the one
`requestId` names. -/
def Throttle.WellFormed {α γ : Type} (t : Throttle α γ) : Prop :=
  t.Idle ∨ ∃ id context, t.requestId = some id ∧ t.frames = [(id, context)]

/-- A callback that records the arguments it is invoked with. -/
def recordFrame (_context : Unit) (args : Option String) (log : List (Option String)) :
    List (Option String) × Unit :=
  (log ++ [args], ())

/-! ## 5. The components and their teardown -/

/-- What the window and the document report when `initSubnavigation` or one of
its callbacks reads them: `window.scrollY`, `window.innerHeight`, the
`offsetHeight` of `.header` and `.subnav-wrapper` (when present), and the
sections that were found, with their current offsets. -/
structure Page where
  scrollY : ℚ
  innerHeight : ℚ
  header : Option ℚ
  subnav : Option ℚ
  sections : List Section
deriving DecidableEq

/-- Everything the callbacks of `initSubnavigation` read or write: the page,
the cached `metrics`, the links, and a count of the `updateActiveLink` passes
run so far. -/
structure SubnavWorld where
  page : Page
  metrics : LayoutMetrics
  links : List NavLink
  passes : ℕ
deriving DecidableEq

/-- One call of `updateActiveLink()` on the current page. -/
def runUpdateActiveLink (w : SubnavWorld) : SubnavWorld :=
  { w with
    links := updateActiveLink w.page.scrollY w.page.innerHeight w.metrics w.page.sections w.links
    passes := w.passes + 1 }

/-- The function wrapped by `debounce(..., 150)`:
`metrics = getLayoutMetrics(); updateActiveLink();`. -/
def resizeBody (_args : Unit) (w : SubnavWorld) : SubnavWorld × Unit :=
  (runUpdateActiveLink { w with metrics := getLayoutMetrics w.page.header w.page.subnav }, ())

/-- The function wrapped by `rafThrottle`: `updateActiveLink`. -/
def scrollBody (_context : Unit) (_args : Option Unit) (w : SubnavWorld) : SubnavWorld × Unit :=
  (runUpdateActiveLink w, ())

/-- The sub-navigation component after `initSubnavigation`: its world, whether
its `scroll` and `resize` listeners are registered on `window`, and its two
wrappers `handleResize` and `handleScroll`. -/
structure Subnav where
  world : SubnavWorld
  scrollListener : Bool
  resizeListener : Bool
  handleResize : Debounce Unit
  handleScroll : Throttle Unit Unit
deriving DecidableEq

/-- The function `initSubnavigation`: nothing is wired when no section or no
link was found; otherwise both listeners are registered and one pass runs. -/
def initSubnavigation (page : Page) (links : List NavLink) : Option Subnav :=
  if page.sections.length = 0 ∨ links.length = 0 then none
  else
    some
      { world := runUpdateActiveLink
          { page := page, metrics := getLayoutMetrics page.header page.subnav,
            links := links, passes := 0 }
        scrollListener := true
        resizeListener := true
        handleResize := Debounce.init Unit
        handleScroll := Throttle.init Unit Unit }

/-- The body of the `click` listener of the link at index `i`, when
`document.querySelector(targetId)` finds an element: that link is forced
active and the others are cleared. -/
def forceActive (i : ℕ) (links : List NavLink) : List NavLink :=
  (links.enum.map fun jl =>
    { jl.2 with
      isActive := decide (jl.1 = i)
      ariaCurrent := if jl.1 = i then some "location" else none })

/-- What can happen to the sub-navigation component. -/
inductive SubnavEvent where
  /-- The window scrolls to `scrollY` and a `scroll` event is dispatched. -/
  | scroll (scrollY : ℚ)
  /-- The window is resized at time `now` and a `resize` event is dispatched. -/
  | resize (now : ℕ) (innerHeight : ℚ) (header subnav : Option ℚ)
  /-- The host clock reaches `now`: due timers fire. -/
  | timers (now : ℕ)
  /-- A frame boundary: pending frame requests run. -/
  | frame
  /-- The link at index `i` is clicked; `found` tells whether its target exists. -/
  | click (i : ℕ) (found : Bool)
  /-- The teardown returned by `initSubnavigation` is called. -/
  | teardown
deriving DecidableEq

/-- Whether the event is a click on a link. -/
def SubnavEvent.isClick : SubnavEvent → Bool
  | .click _ _ => true
  | _ => false

/-- The page of the worked examples: scroll offset 0, viewport height 800, no
header and no sub-navigation wrapper, and the two stacked sections. -/
def demoPage : Page :=
  { scrollY := 0, innerHeight := 800, header := none, subnav := none,
    sections := [⟨"overview", 0, 500⟩, ⟨"vizyon-misyon", 500, 400⟩] }

/-- A sub-navigation component is torn down and quiet: no listener, no pending
frame request, no pending timer. -/
def Subnav.Quiet (c : Subnav) : Prop :=
  c.scrollListener = false ∧ c.resizeListener = false ∧ c.handleScroll.Idle ∧
    c.handleResize.timers = []

/-- One event on the sub-navigation component. -/
def Subnav.handle (c : Subnav) : SubnavEvent → Subnav
  | .scroll scrollY =>
    let world := { c.world with page := { c.world.page with scrollY := scrollY } }
    if c.scrollListener then
      { c with world := world, handleScroll := Throttle.throttled () () c.handleScroll }
    else { c with world := world }
  | .resize now innerHeight header subnav =>
    let world :=
      { c.world with
        page := { c.world.page with innerHeight := innerHeight, header := header, subnav := subnav } }
    if c.resizeListener then
      { c with
        world := world
        handleResize := (Debounce.executedFunction resizeBody 150 now () c.handleResize).1 }
    else { c with world := world }
  | .timers now =>
    { c with
      world := (Debounce.advance resizeBody now (c.handleResize, c.world)).2
      handleResize := (Debounce.advance resizeBody now (c.handleResize, c.world)).1 }
  | .frame =>
    { c with
      world := (Throttle.runFrame scrollBody (c.handleScroll, c.world)).2
      handleScroll := (Throttle.runFrame scrollBody (c.handleScroll, c.world)).1 }
  | .click i found =>
    if found then { c with world := { c.world with links := forceActive i c.world.links } }
    else c
  | .teardown =>
    { c with
      scrollListener := false
      resizeListener := false
      handleScroll := Throttle.cancel c.handleScroll }

/-- A sequence of events, in order. -/
def Subnav.run (c : Subnav) (events : List SubnavEvent) : Subnav :=
  events.foldl Subnav.handle c

/-- Everything the callback of `initStickyIcons` reads or writes: the anchor's
rectangle, the stages with their rectangles, the images, and a count of the
`updateStickyIcon` passes run so far. -/
structure StickyWorld where
  stickyRect : DOMRect
  stages : List StoryStage
  images : List StickyImage
  passes : ℕ
deriving DecidableEq

/-- One call of `updateStickyIcon()` on the current geometry. -/
def runUpdateStickyIcon (w : StickyWorld) : StickyWorld :=
  { w with
    images := updateStickyIcon w.stickyRect w.stages w.images
    passes := w.passes + 1 }

/-- The function wrapped by `rafThrottle` in `initStickyIcons`: `updateStickyIcon`. -/
def stickyBody (_context : Unit) (_args : Option Unit) (w : StickyWorld) : StickyWorld × Unit :=
  (runUpdateStickyIcon w, ())

/-- The sticky image component after `initStickyIcons`: its world, whether its
`scroll` listener is registered, and its wrapper `handleScroll`. -/
structure Sticky where
  world : StickyWorld
  scrollListener : Bool
  handleScroll : Throttle Unit Unit
deriving DecidableEq

/-- The function `initStickyIcons`: nothing is wired when the anchor, the stages
or the images are missing; otherwise the listener is registered and one pass runs. -/
def initStickyIcons (stickyContainer : Option DOMRect) (stages : List StoryStage)
    (images : List StickyImage) : Option Sticky :=
  match stickyContainer with
  | none => none
  | some stickyRect =>
    if stages.length = 0 ∨ images.length = 0 then none
    else
      some
        { world := runUpdateStickyIcon
            { stickyRect := stickyRect, stages := stages, images := images, passes := 0 }
          scrollListener := true
          handleScroll := Throttle.init Unit Unit }

/-- What can happen to the sticky image component. -/
inductive StickyEvent where
  /-- The window scrolls, which moves the rectangles, and a `scroll` event is dispatched. -/
  | scroll (stickyRect : DOMRect) (stages : List StoryStage)
  /-- The window is resized, which moves the rectangles; the component has no
  `resize` listener. -/
  | resize (stickyRect : DOMRect) (stages : List StoryStage)
  /-- A frame boundary: pending frame requests run. -/
  | frame
  /-- The teardown returned by `initStickyIcons` is called. -/
  | teardown
deriving DecidableEq

/-- One event on the sticky image component. -/
def Sticky.handle (c : Sticky) : StickyEvent → Sticky
  | .scroll stickyRect stages =>
    let world := { c.world with stickyRect := stickyRect, stages := stages }
    if c.scrollListener then
      { c with world := world, handleScroll := Throttle.throttled () () c.handleScroll }
    else { c with world := world }
  | .resize stickyRect stages =>
    { c with world := { c.world with stickyRect := stickyRect, stages := stages } }
  | .frame =>
    { c with
      world := (Throttle.runFrame stickyBody (c.handleScroll, c.world)).2
      handleScroll := (Throttle.runFrame stickyBody (c.handleScroll, c.world)).1 }
  | .teardown =>
    { c with
      scrollListener := false
      handleScroll := Throttle.cancel c.handleScroll }

/-- A sequence of events, in order. -/
def Sticky.run (c : Sticky) (events : List StickyEvent) : Sticky :=
  events.foldl Sticky.handle c

/-- A sticky image component is torn down: no listener, no pending frame request. -/
def Sticky.Quiet (c : Sticky) : Prop :=
  c.scrollListener = false ∧ c.handleScroll.Idle

/-- The counter component after `initCounters`: the counters (by index) that
the `IntersectionObserver` still observes, and the counters for which
`animateCounter` has been called, in call order. -/
structure Counters where
  observed : List ℕ
  started : List ℕ
deriving DecidableEq

/-- The function `initCounters` on `n` counter elements: nothing is wired when
there is none; otherwise every counter is observed. -/
def initCounters (n : ℕ) : Option Counters :=
  if n = 0 then none else some { observed := List.range n, started := [] }

/-- The body of `entries.forEach` in the observer callback, for one entry
`(target, isIntersecting)`: an intersecting target is animated and unobserved. -/
def observerEntry (c : Counters) (entry : ℕ × Bool) : Counters :=
  if entry.2 then { observed := c.observed.erase entry.1, started := c.started ++ [entry.1] }
  else c

/-- What can happen to the counter component. -/
inductive CounterEvent where
  /-- Visibility changes: the host calls the observer callback with the
  entries whose target is observed. -/
  | visibility (entries : List (ℕ × Bool))
  /-- The teardown returned by `initCounters`: `observer.disconnect()`. -/
  | teardown
deriving DecidableEq

/-- One event on the counter component. -/
def Counters.handle (c : Counters) : CounterEvent → Counters
  | .visibility entries =>
    (entries.filter (fun entry => decide (entry.1 ∈ c.observed))).foldl observerEntry c
  | .teardown => { c with observed := [] }

/-- A sequence of events, in order. -/
def Counters.run (c : Counters) (events : List CounterEvent) : Counters :=
  events.foldl Counters.handle c

/-! ## 6. Worked inputs and state predicates -/

/-- Two stacked sections of the page, used in the worked examples. -/
def demoSections : List Section :=
  [⟨"overview", 0, 500⟩, ⟨"vizyon-misyon", 500, 400⟩]

/-- Their two links, none active yet. -/
def demoLinks : List NavLink :=
  [⟨some "#overview", false, none⟩, ⟨some "#vizyon-misyon", false, none⟩]

/-- Two sections with the same extent, so that their scores tie. -/
def tiedSections : List Section :=
  [⟨"overview", 0, 500⟩, ⟨"yaklasim", 0, 500⟩]

/-- Two overlapping sections: the second starts inside the first and extends
further down, so that both can be candidates with different overlaps. -/
def nestedSections : List Section :=
  [⟨"overview", 0, 300⟩, ⟨"vizyon-misyon", 100, 600⟩]

/-- The three stages of the worked example, with centres 100, 480 and 900. -/
def demoStages : List StoryStage :=
  [⟨"stage-1", ⟨50, 100⟩⟩, ⟨"stage-2", ⟨430, 100⟩⟩, ⟨"stage-3", ⟨850, 100⟩⟩]

/-- One image per stage, the first one shown. -/
def demoImages : List StickyImage :=
  [⟨some "stage-1", true, some "false"⟩, ⟨some "stage-2", false, some "true"⟩,
    ⟨some "stage-3", false, some "true"⟩]

/-- A wrapper with one pending timer, the one `timeout` names. -/
def Debounce.PendingOne {α : Type} (d : Debounce α) (deadline : ℕ) (args : α) : Prop :=
  ∃ id, d.timeout = some id ∧ d.timers = [{ id := id, deadline := deadline, args := args }]

/-- The sub-navigation component right after `initSubnavigation` on the demo
page with the two demo links. -/
def demoSubnav : Subnav :=
  { world :=
      { page := demoPage, metrics := getLayoutMetrics none none,
        links := [⟨some "#overview", true, some "location"⟩, ⟨some "#vizyon-misyon", false, none⟩],
        passes := 1 }
    scrollListener := true
    resizeListener := true
    handleResize := Debounce.init Unit
    handleScroll := Throttle.init Unit Unit }

/-! ### Lemmas on the selection loop -/

/-- What the loop computes from an arbitrary accumulator: either nothing beats
the accumulator, or the result is the first section of largest score. -/
theorem foldl_sectionStep_spec (scrollPos innerHeight : ℚ) (sections : List Section) :
    ∀ acc : Option Section × ℚ,
      (sections.foldl (sectionStep scrollPos innerHeight) acc = acc ∧
        ∀ c ∈ sections, isCandidate scrollPos c → visibility scrollPos innerHeight c ≤ acc.2) ∨
      (∃ pre s post, sections = pre ++ s :: post ∧
        sections.foldl (sectionStep scrollPos innerHeight) acc
          = (some s, visibility scrollPos innerHeight s) ∧
        isCandidate scrollPos s ∧ acc.2 < visibility scrollPos innerHeight s ∧
        (∀ c ∈ pre, isCandidate scrollPos c →
          visibility scrollPos innerHeight c < visibility scrollPos innerHeight s) ∧
        (∀ c ∈ post, isCandidate scrollPos c →
          visibility scrollPos innerHeight c ≤ visibility scrollPos innerHeight s)) := by
  induction sections with
  | nil => intro acc; left; simp
  | cons x xs ih =>
    intro acc
    rw [List.foldl_cons]
    by_cases hx : isCandidate scrollPos x ∧ visibility scrollPos innerHeight x > acc.2
    · have hstep : sectionStep scrollPos innerHeight acc x
          = (some x, visibility scrollPos innerHeight x) := by
        simp [sectionStep, hx.1, hx.2]
      rw [hstep]
      rcases ih (some x, visibility scrollPos innerHeight x) with ⟨heq, hle⟩ | h
      · right
        exact ⟨[], x, xs, rfl, heq, hx.1, hx.2, by simp, hle⟩
      · obtain ⟨pre, s, post, hsplit, heq, hc, hlt, hpre, hpost⟩ := h
        right
        refine ⟨x :: pre, s, post, by simp [hsplit], heq, hc, ?_, ?_, hpost⟩
        · exact lt_trans hx.2 hlt
        · intro c hcmem hcc
          rcases List.mem_cons.1 hcmem with rfl | hcmem
          · exact hlt
          · exact hpre c hcmem hcc
    · have hstep : sectionStep scrollPos innerHeight acc x = acc := by
        unfold sectionStep
        by_cases h1 : isCandidate scrollPos x
        · have h2 : ¬ visibility scrollPos innerHeight x > acc.2 := fun h => hx ⟨h1, h⟩
          simp [h1, h2]
        · simp [h1]
      rw [hstep]
      have hxle : isCandidate scrollPos x → visibility scrollPos innerHeight x ≤ acc.2 := by
        intro h1
        exact not_lt.1 (fun h => hx ⟨h1, h⟩)
      rcases ih acc with ⟨heq, hle⟩ | h
      · left
        refine ⟨heq, ?_⟩
        intro c hcmem hcc
        rcases List.mem_cons.1 hcmem with rfl | hcmem
        · exact hxle hcc
        · exact hle c hcmem hcc
      · obtain ⟨pre, s, post, hsplit, heq, hc, hlt, hpre, hpost⟩ := h
        right
        refine ⟨x :: pre, s, post, by simp [hsplit], heq, hc, hlt, ?_, hpost⟩
        intro c hcmem hcc
        rcases List.mem_cons.1 hcmem with rfl | hcmem
        · exact lt_of_le_of_lt (hxle hcc) hlt
        · exact hpre c hcmem hcc

/-- The loop started from `(null, 0)`: no section is selected exactly when no
candidate has a positive score; otherwise the first candidate of largest score. -/
theorem findActiveSection_spec (scrollPos innerHeight : ℚ) (sections : List Section) :
    (findActiveSection scrollPos innerHeight sections = none ∧
        ∀ c ∈ sections, isCandidate scrollPos c → visibility scrollPos innerHeight c ≤ 0) ∨
      (∃ pre s post, sections = pre ++ s :: post ∧
        findActiveSection scrollPos innerHeight sections = some s ∧
        isCandidate scrollPos s ∧ 0 < visibility scrollPos innerHeight s ∧
        (∀ c ∈ pre, isCandidate scrollPos c →
          visibility scrollPos innerHeight c < visibility scrollPos innerHeight s) ∧
        (∀ c ∈ post, isCandidate scrollPos c →
          visibility scrollPos innerHeight c ≤ visibility scrollPos innerHeight s)) := by
  unfold findActiveSection
  rcases foldl_sectionStep_spec scrollPos innerHeight sections (none, 0) with ⟨heq, hle⟩ | h
  · left
    exact ⟨by rw [heq], hle⟩
  · obtain ⟨pre, s, post, hsplit, heq, hc, hlt, hpre, hpost⟩ := h
    right
    exact ⟨pre, s, post, hsplit, by rw [heq], hc, hlt, hpre, hpost⟩

/-- A candidate's score is positive as soon as the viewport has a positive height. -/
theorem visibility_pos_of_candidate (scrollPos innerHeight : ℚ) (s : Section)
    (hvh : 0 < innerHeight) (hc : isCandidate scrollPos s) :
    0 < visibility scrollPos innerHeight s := by
  obtain ⟨h1, h2⟩ := hc
  unfold visibility
  have hmax : max s.offsetTop scrollPos = scrollPos := max_eq_right h1
  rw [hmax]
  have : scrollPos < min (s.offsetTop + s.offsetHeight) (scrollPos + innerHeight) :=
    lt_min h2 (by linarith)
  linarith

/-! ### The activation pass -/

/-- A link is marked active exactly when its `href` is the active id. -/
theorem markLink_shownActive (activeId : String) (l : NavLink) (h : l.href = some activeId) :
    (markLink activeId l).shownActive ∧ (markLink activeId l).href = some activeId := by
  simp [markLink, NavLink.shownActive, h]

/-- Every other link is cleared. -/
theorem markLink_shownInactive (activeId : String) (l : NavLink) (h : l.href ≠ some activeId) :
    (markLink activeId l).shownInactive := by
  simp [markLink, NavLink.shownInactive, h]

/-- With pairwise distinct `href`s, marking leaves exactly the link of the
active id active. -/
theorem map_markLink_exactly_one (activeId : String) (links : List NavLink)
    (hnodup : (links.map NavLink.href).Nodup)
    (hmem : some activeId ∈ links.map NavLink.href) :
    ∃ pre l post, links.map (markLink activeId) = pre ++ l :: post ∧
      l.href = some activeId ∧ l.shownActive ∧ ∀ x ∈ pre ++ post, x.shownInactive := by
  obtain ⟨l0, hl0, hhref⟩ := List.mem_map.1 hmem
  obtain ⟨p, q, rfl⟩ := List.append_of_mem hl0
  have hnd : (l0.href :: (p.map NavLink.href ++ q.map NavLink.href)).Nodup := by
    have := hnodup
    simp only [List.map_append, List.map_cons] at this
    exact List.nodup_middle.1 this
  have hnot : l0.href ∉ p.map NavLink.href ++ q.map NavLink.href := (List.nodup_cons.1 hnd).1
  refine ⟨p.map (markLink activeId), markLink activeId l0, q.map (markLink activeId), by simp,
    (markLink_shownActive activeId l0 hhref).2, (markLink_shownActive activeId l0 hhref).1, ?_⟩
  intro x hx
  rcases List.mem_append.1 hx with hx | hx
  · obtain ⟨y, hy, rfl⟩ := List.mem_map.1 hx
    apply markLink_shownInactive
    intro hyh
    exact hnot (List.mem_append_left _ (List.mem_map.2 ⟨y, hy, by rw [hyh, hhref]⟩))
  · obtain ⟨y, hy, rfl⟩ := List.mem_map.1 hx
    apply markLink_shownInactive
    intro hyh
    exact hnot (List.mem_append_right _ (List.mem_map.2 ⟨y, hy, by rw [hyh, hhref]⟩))

/-- C1 (as amended): when the viewport height is positive, some section is a
candidate, the links have pairwise distinct `href`s and every section has its
link `'#' + id`, one pass of `updateActiveLink` leaves exactly one link active
(`is-active`, `aria-current="location"`), namely the link of a candidate
section, and every other link inactive; when only one section is a candidate
the active link is that section's link. -/
theorem updateActiveLink_exactly_one_active (scrollY innerHeight : ℚ) (metrics : LayoutMetrics)
    (sections : List Section) (links : List NavLink)
    (hvh : 0 < innerHeight)
    (hcand : ∃ c ∈ sections, isCandidate (effectiveScrollPos scrollY metrics) c)
    (hnodup : (links.map NavLink.href).Nodup)
    (hrel : ∀ c ∈ sections, some ("#" ++ c.id) ∈ links.map NavLink.href) :
    ∃ s ∈ sections, isCandidate (effectiveScrollPos scrollY metrics) s ∧
      (∀ u, (∀ c ∈ sections, isCandidate (effectiveScrollPos scrollY metrics) c → c = u) → s = u) ∧
      ∃ pre l post,
        updateActiveLink scrollY innerHeight metrics sections links = pre ++ l :: post ∧
        l.href = some ("#" ++ s.id) ∧ l.shownActive ∧ ∀ x ∈ pre ++ post, x.shownInactive := by
  rcases findActiveSection_spec (effectiveScrollPos scrollY metrics) innerHeight sections with
    ⟨_, hle⟩ | ⟨pre, s, post, hsplit, heq, hc, _, _, _⟩
  · obtain ⟨c, hcmem, hcc⟩ := hcand
    have := visibility_pos_of_candidate _ innerHeight c hvh hcc
    exact absurd (hle c hcmem hcc) (not_le.2 this)
  · have hsmem : s ∈ sections := by rw [hsplit]; simp
    refine ⟨s, hsmem, hc, fun u hu => hu s hsmem hc, ?_⟩
    have hupd : updateActiveLink scrollY innerHeight metrics sections links
        = links.map (markLink ("#" ++ s.id)) := by
      simp [updateActiveLink, heq]
    rw [hupd]
    exact map_markLink_exactly_one _ links hnodup (hrel s hsmem)

/-- C2 (as amended): for every section list, scroll position, layout metrics
and viewport height greater than 0 with at least one candidate section,
`updateActiveLink` selects a candidate whose overlap `min(sectionBottom,
effectiveScrollPos + viewportHeight) - max(sectionTop, effectiveScrollPos)` is
the largest among the candidates, and among candidates of equal largest overlap
the first in declaration order: every candidate declared before it has a
strictly smaller overlap and every candidate declared after it has an overlap
that is not larger. The links are marked for that section's id `'#' + id`. -/
theorem updateActiveLink_activates_first_largest (scrollY innerHeight : ℚ)
    (metrics : LayoutMetrics) (sections : List Section) (links : List NavLink)
    (hvh : 0 < innerHeight)
    (hcand : ∃ c ∈ sections, isCandidate (effectiveScrollPos scrollY metrics) c) :
    ∃ pre s post, sections = pre ++ s :: post ∧
      findActiveSection (effectiveScrollPos scrollY metrics) innerHeight sections = some s ∧
      isCandidate (effectiveScrollPos scrollY metrics) s ∧
      (∀ c ∈ pre, isCandidate (effectiveScrollPos scrollY metrics) c →
        min (c.offsetTop + c.offsetHeight) (effectiveScrollPos scrollY metrics + innerHeight)
            - max c.offsetTop (effectiveScrollPos scrollY metrics)
          < min (s.offsetTop + s.offsetHeight) (effectiveScrollPos scrollY metrics + innerHeight)
            - max s.offsetTop (effectiveScrollPos scrollY metrics)) ∧
      (∀ c ∈ post, isCandidate (effectiveScrollPos scrollY metrics) c →
        min (c.offsetTop + c.offsetHeight) (effectiveScrollPos scrollY metrics + innerHeight)
            - max c.offsetTop (effectiveScrollPos scrollY metrics)
          ≤ min (s.offsetTop + s.offsetHeight) (effectiveScrollPos scrollY metrics + innerHeight)
            - max s.offsetTop (effectiveScrollPos scrollY metrics)) ∧
      updateActiveLink scrollY innerHeight metrics sections links
        = links.map (fun link =>
            { href := link.href
              isActive := decide (link.href = some ("#" ++ s.id))
              ariaCurrent := if link.href = some ("#" ++ s.id) then some "location" else none }) := by
  rcases findActiveSection_spec (effectiveScrollPos scrollY metrics) innerHeight sections with
    ⟨_, hle⟩ | ⟨pre, s, post, hsplit, heq, hc, _, hpre, hpost⟩
  · obtain ⟨c, hcmem, hcc⟩ := hcand
    have := visibility_pos_of_candidate _ innerHeight c hvh hcc
    exact absurd (hle c hcmem hcc) (not_le.2 this)
  · refine ⟨pre, s, post, hsplit, heq, hc, ?_, ?_, ?_⟩
    · intro c hcmem hcc
      exact hpre c hcmem hcc
    · intro c hcmem hcc
      exact hpost c hcmem hcc
    · simp only [updateActiveLink, heq]
      apply List.map_congr_left
      intro link _
      simp [markLink]

/-- C3: when no section is a candidate, a pass of `updateActiveLink` returns the
links exactly as they were. -/
theorem updateActiveLink_no_candidate (scrollY innerHeight : ℚ) (metrics : LayoutMetrics)
    (sections : List Section) (links : List NavLink)
    (h : ∀ c ∈ sections, ¬ isCandidate (effectiveScrollPos scrollY metrics) c) :
    updateActiveLink scrollY innerHeight metrics sections links = links := by
  rcases findActiveSection_spec (effectiveScrollPos scrollY metrics) innerHeight sections with
    ⟨hnone, _⟩ | ⟨pre, s, post, hsplit, _, hc, _, _, _⟩
  · simp [updateActiveLink, hnone]
  · exact absurd hc (h s (by rw [hsplit]; simp))

/-- C1, worked example: scroll offset 0, viewport height 800, default metrics
(effective position 190, inside the first section). -/
theorem updateActiveLink_exactly_one_active_witness :
    ∃ s ∈ demoSections, isCandidate (effectiveScrollPos 0 (getLayoutMetrics none none)) s ∧
      (∀ u, (∀ c ∈ demoSections,
        isCandidate (effectiveScrollPos 0 (getLayoutMetrics none none)) c → c = u) → s = u) ∧
      ∃ pre l post,
        updateActiveLink 0 800 (getLayoutMetrics none none) demoSections demoLinks
          = pre ++ l :: post ∧
        l.href = some ("#" ++ s.id) ∧ l.shownActive ∧ ∀ x ∈ pre ++ post, x.shownInactive :=
  updateActiveLink_exactly_one_active 0 800 (getLayoutMetrics none none) demoSections demoLinks
    (by norm_num)
    ⟨⟨"overview", 0, 500⟩, by simp [demoSections],
      by norm_num [isCandidate, effectiveScrollPos, getLayoutMetrics, heightOr]⟩
    (by decide) (by decide)

/-- C1 as stated fails for a viewport of height 0: the only section is a
candidate (effective position 190 in `[0, 500)`), it has its own link, and
after the pass no link is active. -/
theorem updateActiveLink_zero_viewport_none_active :
    (∃ c ∈ [(⟨"overview", 0, 500⟩ : Section)],
        isCandidate (effectiveScrollPos 0 (getLayoutMetrics none none)) c) ∧
      ([(⟨some "#overview", false, none⟩ : NavLink)].map NavLink.href).Nodup ∧
      (∀ c ∈ [(⟨"overview", 0, 500⟩ : Section)],
        some ("#" ++ c.id) ∈ [(⟨some "#overview", false, none⟩ : NavLink)].map NavLink.href) ∧
      ∀ l ∈ updateActiveLink 0 0 (getLayoutMetrics none none) [⟨"overview", 0, 500⟩]
          [⟨some "#overview", false, none⟩], l.isActive = false := by
  refine ⟨⟨_, List.mem_singleton.2 rfl, ?_⟩, by decide, by decide, ?_⟩
  · norm_num [isCandidate, effectiveScrollPos, getLayoutMetrics, heightOr]
  · norm_num [updateActiveLink, effectiveScrollPos, getLayoutMetrics, heightOr,
      findActiveSection, sectionStep, isCandidate, visibility]

/-- C2, worked example: at scroll offset 10 (effective position 200) and
viewport height 800 both sections are candidates, with overlaps 100 and 500;
the section declared second wins and its link is the one marked active. On the
tied sections (overlap 310 each) the section declared first is selected. -/
theorem updateActiveLink_activates_first_largest_witness :
    ((∀ c ∈ nestedSections,
        isCandidate (effectiveScrollPos 10 (getLayoutMetrics none none)) c) ∧
      nestedSections.map (visibility (effectiveScrollPos 10 (getLayoutMetrics none none)) 800)
        = [100, 500] ∧
      updateActiveLink 10 800 (getLayoutMetrics none none) nestedSections demoLinks
        = [⟨some "#overview", false, none⟩, ⟨some "#vizyon-misyon", true, some "location"⟩]) ∧
    (tiedSections.map (visibility (effectiveScrollPos 0 (getLayoutMetrics none none)) 800)
        = [310, 310] ∧
      findActiveSection (effectiveScrollPos 0 (getLayoutMetrics none none)) 800 tiedSections
        = some ⟨"overview", 0, 500⟩) ∧
    ∃ pre s post, nestedSections = pre ++ s :: post ∧
      findActiveSection (effectiveScrollPos 10 (getLayoutMetrics none none)) 800 nestedSections
        = some s ∧
      isCandidate (effectiveScrollPos 10 (getLayoutMetrics none none)) s ∧
      (∀ c ∈ pre, isCandidate (effectiveScrollPos 10 (getLayoutMetrics none none)) c →
        min (c.offsetTop + c.offsetHeight)
              (effectiveScrollPos 10 (getLayoutMetrics none none) + 800)
            - max c.offsetTop (effectiveScrollPos 10 (getLayoutMetrics none none))
          < min (s.offsetTop + s.offsetHeight)
              (effectiveScrollPos 10 (getLayoutMetrics none none) + 800)
            - max s.offsetTop (effectiveScrollPos 10 (getLayoutMetrics none none))) ∧
      (∀ c ∈ post, isCandidate (effectiveScrollPos 10 (getLayoutMetrics none none)) c →
        min (c.offsetTop + c.offsetHeight)
              (effectiveScrollPos 10 (getLayoutMetrics none none) + 800)
            - max c.offsetTop (effectiveScrollPos 10 (getLayoutMetrics none none))
          ≤ min (s.offsetTop + s.offsetHeight)
              (effectiveScrollPos 10 (getLayoutMetrics none none) + 800)
            - max s.offsetTop (effectiveScrollPos 10 (getLayoutMetrics none none))) ∧
      updateActiveLink 10 800 (getLayoutMetrics none none) nestedSections demoLinks
        = demoLinks.map (fun link =>
            { href := link.href
              isActive := decide (link.href = some ("#" ++ s.id))
              ariaCurrent := if link.href = some ("#" ++ s.id) then some "location" else none }) :=
  ⟨⟨by norm_num [nestedSections, isCandidate, effectiveScrollPos, getLayoutMetrics, heightOr],
      by norm_num [nestedSections, visibility, effectiveScrollPos, getLayoutMetrics, heightOr],
      by
        norm_num [updateActiveLink, nestedSections, demoLinks, effectiveScrollPos,
          getLayoutMetrics, heightOr, findActiveSection, sectionStep, isCandidate, visibility,
          markLink]
        decide⟩,
    ⟨by norm_num [tiedSections, visibility, effectiveScrollPos, getLayoutMetrics, heightOr],
      by
        norm_num [findActiveSection, tiedSections, sectionStep, isCandidate, visibility,
          effectiveScrollPos, getLayoutMetrics, heightOr]⟩,
    updateActiveLink_activates_first_largest 10 800 (getLayoutMetrics none none) nestedSections
      demoLinks (by norm_num)
      ⟨⟨"overview", 0, 300⟩, by simp [nestedSections],
        by norm_num [isCandidate, effectiveScrollPos, getLayoutMetrics, heightOr]⟩⟩

/-- C2 as stated fails for a viewport of height 0: at effective position 190
both tied sections are candidates with the same, largest overlap 0, yet no
section is selected, the first one included, and the links are left as they were. -/
theorem updateActiveLink_zero_viewport_tie_none_selected :
    (∀ c ∈ tiedSections,
        isCandidate (effectiveScrollPos 0 (getLayoutMetrics none none)) c) ∧
      tiedSections.map (visibility (effectiveScrollPos 0 (getLayoutMetrics none none)) 0)
        = [0, 0] ∧
      findActiveSection (effectiveScrollPos 0 (getLayoutMetrics none none)) 0 tiedSections
        = none ∧
      updateActiveLink 0 0 (getLayoutMetrics none none) tiedSections
          [⟨some "#overview", false, none⟩, ⟨some "#yaklasim", false, none⟩]
        = [⟨some "#overview", false, none⟩, ⟨some "#yaklasim", false, none⟩] := by
  refine ⟨?_, ?_, ?_, ?_⟩
  · norm_num [tiedSections, isCandidate, effectiveScrollPos, getLayoutMetrics, heightOr]
  · norm_num [tiedSections, visibility, effectiveScrollPos, getLayoutMetrics, heightOr]
  · norm_num [findActiveSection, tiedSections, sectionStep, isCandidate, visibility,
      effectiveScrollPos, getLayoutMetrics, heightOr]
  · norm_num [updateActiveLink, findActiveSection, tiedSections, sectionStep, isCandidate,
      visibility, effectiveScrollPos, getLayoutMetrics, heightOr]

/-- C3, worked example: effective position 1190 lies below both sections; the
active link stays as it was. -/
theorem updateActiveLink_no_candidate_witness :
    (∀ c ∈ demoSections,
        ¬ isCandidate (effectiveScrollPos 1000 (getLayoutMetrics none none)) c) ∧
      updateActiveLink 1000 800 (getLayoutMetrics none none) demoSections
          [⟨some "#overview", false, none⟩, ⟨some "#vizyon-misyon", true, some "location"⟩]
        = [⟨some "#overview", false, none⟩, ⟨some "#vizyon-misyon", true, some "location"⟩] :=
  have h : ∀ c ∈ demoSections,
      ¬ isCandidate (effectiveScrollPos 1000 (getLayoutMetrics none none)) c := by
    norm_num [demoSections, isCandidate, effectiveScrollPos, getLayoutMetrics, heightOr]
  ⟨h, updateActiveLink_no_candidate 1000 800 (getLayoutMetrics none none) demoSections _ h⟩

/-! ### The sticky image selection -/

/-- What the stage loop computes from an arbitrary accumulator. -/
theorem foldl_stageStep_spec (stickyCenter : ℚ) (stages : List StoryStage) :
    ∀ acc : Option StoryStage × Option ℚ,
      (stages.foldl (stageStep stickyCenter) acc = acc ∧
        ∀ c ∈ stages, ¬ belowMin (stageDistance stickyCenter c) acc.2) ∨
      (∃ pre s post, stages = pre ++ s :: post ∧
        stages.foldl (stageStep stickyCenter) acc = (some s, some (stageDistance stickyCenter s)) ∧
        belowMin (stageDistance stickyCenter s) acc.2 ∧
        (∀ c ∈ pre, stageDistance stickyCenter s < stageDistance stickyCenter c) ∧
        (∀ c ∈ post, stageDistance stickyCenter s ≤ stageDistance stickyCenter c)) := by
  induction stages with
  | nil => intro acc; left; simp
  | cons x xs ih =>
    intro acc
    rw [List.foldl_cons]
    by_cases hx : belowMin (stageDistance stickyCenter x) acc.2
    · have hstep : stageStep stickyCenter acc x = (some x, some (stageDistance stickyCenter x)) := by
        simp [stageStep, hx]
      rw [hstep]
      right
      rcases ih (some x, some (stageDistance stickyCenter x)) with ⟨heq, hle⟩ | h
      · refine ⟨[], x, xs, rfl, heq, hx, by simp, ?_⟩
        intro c hc
        have := hle c hc
        simpa [belowMin] using this
      · obtain ⟨pre, s, post, hsplit, heq, hlt, hpre, hpost⟩ := h
        have hlt' : stageDistance stickyCenter s < stageDistance stickyCenter x := by
          simpa [belowMin] using hlt
        refine ⟨x :: pre, s, post, by simp [hsplit], heq, ?_, ?_, hpost⟩
        · cases hacc : acc.2 with
          | none => simp [belowMin]
          | some m =>
            rw [hacc] at hx
            have hxm : stageDistance stickyCenter x < m := by simpa [belowMin] using hx
            simpa [belowMin] using lt_trans hlt' hxm
        · intro c hcmem
          rcases List.mem_cons.1 hcmem with rfl | hcmem
          · exact hlt'
          · exact hpre c hcmem
    · have hstep : stageStep stickyCenter acc x = acc := by
        simp [stageStep, hx]
      rw [hstep]
      rcases ih acc with ⟨heq, hle⟩ | h
      · left
        refine ⟨heq, ?_⟩
        intro c hcmem
        rcases List.mem_cons.1 hcmem with rfl | hcmem
        · exact hx
        · exact hle c hcmem
      · obtain ⟨pre, s, post, hsplit, heq, hlt, hpre, hpost⟩ := h
        right
        refine ⟨x :: pre, s, post, by simp [hsplit], heq, hlt, ?_, hpost⟩
        intro c hcmem
        rcases List.mem_cons.1 hcmem with rfl | hcmem
        · cases hacc : acc.2 with
          | none => rw [hacc] at hx; simp [belowMin] at hx
          | some m =>
            rw [hacc] at hx hlt
            have h1 : m ≤ stageDistance stickyCenter c := by simpa [belowMin] using hx
            have h2 : stageDistance stickyCenter s < m := by simpa [belowMin] using hlt
            exact lt_of_lt_of_le h2 h1
        · exact hpre c hcmem

/-- C4: for every anchor rectangle and every non-empty list of stages,
`updateStickyIcon` selects the first stage in list order whose distance
`|anchorCenter - stageCenter|` is minimal, and after the pass every image is
active iff its `data-image-for` equals the selected stage's id, with
`aria-hidden` set to the negation of its active state. -/
theorem updateStickyIcon_selects_closest (stickyRect : DOMRect) (stages : List StoryStage)
    (images : List StickyImage) (hne : stages ≠ []) :
    ∃ pre s post, stages = pre ++ s :: post ∧
      findClosestStage stickyRect stages = some s ∧
      (∀ c ∈ pre, stageDistance (rectCenter stickyRect) s < stageDistance (rectCenter stickyRect) c) ∧
      (∀ c ∈ post, stageDistance (rectCenter stickyRect) s ≤ stageDistance (rectCenter stickyRect) c) ∧
      updateStickyIcon stickyRect stages images =
        images.map (fun img =>
          { imageFor := img.imageFor
            isActive := decide (img.imageFor = some s.id)
            ariaHidden := some (if img.imageFor = some s.id then "false" else "true") }) := by
  rcases foldl_stageStep_spec (rectCenter stickyRect) stages (none, none) with
    ⟨_, hnot⟩ | ⟨pre, s, post, hsplit, heq, _, hpre, hpost⟩
  · cases stages with
    | nil => exact absurd rfl hne
    | cons x xs => exact absurd (by simp [belowMin]) (hnot x (by simp))
  · have hfind : findClosestStage stickyRect stages = some s := by
      simp [findClosestStage, heq]
    refine ⟨pre, s, post, hsplit, hfind, hpre, hpost, ?_⟩
    simp only [updateStickyIcon, hfind]
    apply List.map_congr_left
    intro img _
    simp [setImage]

/-- C4, worked example: anchor centre 500 (top 450, height 100) and stage
centres 100, 480, 900 select the stage centred at 480; its image is shown and
the others are hidden. -/
theorem updateStickyIcon_selects_closest_witness :
    (rectCenter ⟨450, 100⟩ = 500 ∧ demoStages.map (fun st => rectCenter st.rect) = [100, 480, 900]) ∧
    findClosestStage ⟨450, 100⟩ demoStages = some ⟨"stage-2", ⟨430, 100⟩⟩ ∧
    updateStickyIcon ⟨450, 100⟩ demoStages demoImages =
      [⟨some "stage-1", false, some "true"⟩, ⟨some "stage-2", true, some "false"⟩,
        ⟨some "stage-3", false, some "true"⟩] ∧
    ∃ pre s post, demoStages = pre ++ s :: post ∧
      findClosestStage ⟨450, 100⟩ demoStages = some s ∧
      (∀ c ∈ pre, stageDistance (rectCenter ⟨450, 100⟩) s < stageDistance (rectCenter ⟨450, 100⟩) c) ∧
      (∀ c ∈ post, stageDistance (rectCenter ⟨450, 100⟩) s ≤ stageDistance (rectCenter ⟨450, 100⟩) c) ∧
      updateStickyIcon ⟨450, 100⟩ demoStages demoImages =
        demoImages.map (fun img =>
          { imageFor := img.imageFor
            isActive := decide (img.imageFor = some s.id)
            ariaHidden := some (if img.imageFor = some s.id then "false" else "true") }) :=
  ⟨by norm_num [rectCenter, demoStages],
    by norm_num [findClosestStage, demoStages, stageStep, belowMin, stageDistance, rectCenter, abs_lt],
    by
      norm_num [updateStickyIcon, findClosestStage, demoStages, demoImages, stageStep, belowMin,
        stageDistance, rectCenter, setImage]
      decide,
    updateStickyIcon_selects_closest ⟨450, 100⟩ demoStages demoImages (by simp [demoStages])⟩

/-! ### The counter animation -/

/-- One call of `step`, read against the specification's wording, with
`elapsed` measured from whatever `startTime` the call settles on. -/
theorem step_eq_specFrame (target : ℤ) (startTime : Option ℚ) (currentTime : ℚ) :
    step target startTime currentTime =
      { startTime := some (startOr startTime currentTime)
        displayed := (specFrame target (startOr startTime currentTime) currentTime).1
        requestsFrame := (specFrame target (startOr startTime currentTime) currentTime).2 } := by
  unfold step specFrame
  simp only [duration, easeOutCubic]
  split <;> rfl

/-- A non-zero `startTime` is kept by every later call. -/
theorem startOr_of_ne_zero (s t : ℚ) (hs : s ≠ 0) : startOr (some s) t = s := by
  simp [startOr, hs]

/-- Once `startTime` holds a non-zero timestamp, all later frames follow the
specification's wording with `elapsed` measured from it. -/
theorem runFrames_eq_specFrames (target : ℤ) (s : ℚ) (hs : s ≠ 0) (ts : List ℚ) :
    (runFrames target (some s) ts).map (fun f => (f.displayed, f.requestsFrame))
      = specFrames target s ts := by
  induction ts with
  | nil => rfl
  | cons t ts ih =>
    simp only [runFrames, specFrames, step_eq_specFrame, startOr_of_ne_zero s t hs, List.map_cons]
    split
    · rw [ih]
    · rfl

/-- When the first frame's timestamp is not `0`, the whole animation follows the
specification's wording: every frame displays `floor((1 - (1 - progress)^3) *
target)` while `progress < 1` and `target` once `progress >= 1`, and requests
another frame iff `progress < 1`. -/
theorem animateCounter_eq_specFrames (target : ℤ) (t0 : ℚ) (h0 : t0 ≠ 0) (ts : List ℚ) :
    (animateCounter (some target) (t0 :: ts)).map (fun f => (f.displayed, f.requestsFrame))
      = specFrames target t0 (t0 :: ts) := by
  have hstart : startOr none t0 = t0 := rfl
  simp only [animateCounter, runFrames, specFrames, step_eq_specFrame, hstart, List.map_cons]
  split
  · rw [runFrames_eq_specFrames target t0 h0 ts]
  · rfl

/-- Worked example: target 1000, first frame at 5000 ms; the counter shows 0 at
elapsed 0, 875 at elapsed 600, and exactly 1000 at elapsed 1200, where it stops. -/
theorem animateCounter_example :
    animateCounter (some 1000) [5000, 5600, 6200, 7000]
      = [⟨some 5000, 0, true⟩, ⟨some 5000, 875, true⟩, ⟨some 5000, 1000, false⟩] := by
  norm_num [animateCounter, runFrames, step, startOr, duration, easeOutCubic]

/-- C5 at a first frame with timestamp `0`: `!startTime` still holds at the
second frame, so `startTime` is set again, the frame at 1200 ms displays 0 and
requests another frame, where the specification's wording gives 1000 and stops. -/
theorem animateCounter_zero_first_timestamp :
    animateCounter (some 1000) [0, 1200] = [⟨some 0, 0, true⟩, ⟨some 1200, 0, true⟩] ∧
    specFrames 1000 0 [0, 1200] = [(0, true), (1000, false)] := by
  constructor
  · norm_num [animateCounter, runFrames, step, startOr, duration, easeOutCubic]
  · norm_num [specFrames, specFrame]

/-! ### Monotonicity of the counter -/

/-- `easeOutCubic` is monotone on `[0, 1]`. -/
theorem easeOutCubic_mono {p q : ℚ} (hpq : p ≤ q) (hq : q ≤ 1) :
    easeOutCubic p ≤ easeOutCubic q := by
  unfold easeOutCubic
  have h1 : 0 ≤ 1 - q := by linarith
  have h2 : 1 - q ≤ 1 - p := by linarith
  have := pow_le_pow_left₀ h1 h2 3
  linarith

/-- `easeOutCubic` stays below `1` on arguments up to `1`. -/
theorem easeOutCubic_le_one {p : ℚ} (hp : p ≤ 1) : easeOutCubic p ≤ 1 := by
  unfold easeOutCubic
  have h1 : 0 ≤ 1 - p := by linarith
  have := pow_nonneg h1 3
  linarith

/-- The displayed value of a frame as a function of its progress. -/
theorem step_displayed (target : ℤ) (startTime : Option ℚ) (t : ℚ) :
    (step target startTime t).displayed =
      if min ((t - startOr startTime t) / duration) 1 < 1 then
        ⌊easeOutCubic (min ((t - startOr startTime t) / duration) 1) * (target : ℚ)⌋
      else target := by
  unfold step
  simp only []
  split <;> rfl

/-- The `startTime` a frame leaves behind. -/
theorem step_startTime (target : ℤ) (startTime : Option ℚ) (t : ℚ) :
    (step target startTime t).startTime = some (startOr startTime t) := by
  unfold step
  simp only []
  split <;> rfl

/-- For a non-negative target the displayed value is monotone in the progress. -/
theorem displayed_mono (target : ℤ) (htarget : 0 ≤ target) {p q : ℚ} (hpq : p ≤ q) (hq : q ≤ 1) :
    (if p < 1 then ⌊easeOutCubic p * (target : ℚ)⌋ else target)
      ≤ (if q < 1 then ⌊easeOutCubic q * (target : ℚ)⌋ else target) := by
  have ht : (0 : ℚ) ≤ (target : ℚ) := by exact_mod_cast htarget
  by_cases hq1 : q < 1
  · have hp1 : p < 1 := lt_of_le_of_lt hpq hq1
    rw [if_pos hp1, if_pos hq1]
    exact Int.floor_le_floor (mul_le_mul_of_nonneg_right (easeOutCubic_mono hpq hq) ht)
  · rw [if_neg hq1]
    by_cases hp1 : p < 1
    · rw [if_pos hp1]
      have h1 : easeOutCubic p * (target : ℚ) ≤ (target : ℚ) := by
        have := mul_le_mul_of_nonneg_right (easeOutCubic_le_one (le_of_lt hp1)) ht
        simpa using this
      have := Int.floor_le_floor h1
      simpa using this
    · rw [if_neg hp1]

/-- Two successive frames: for a target that is not negative, a frame at `t1` whose `startTime` is not later than `t1`, followed by a
frame at `t2 ≥ t1`, never displays more than its successor. -/
theorem step_displayed_mono (target : ℤ) (startTime : Option ℚ) (t1 t2 : ℚ)
    (htarget : 0 ≤ target) (hstart : ∀ s, startTime = some s → s ≤ t1) (ht : t1 ≤ t2) :
    (step target startTime t1).displayed
      ≤ (step target (step target startTime t1).startTime t2).displayed := by
  rw [step_startTime, step_displayed, step_displayed]
  have hd : (0 : ℚ) < duration := by norm_num [duration]
  -- the elapsed times of the two frames
  have h1 : 0 ≤ t1 - startOr startTime t1 := by
    unfold startOr
    cases hst : startTime with
    | none => simp
    | some v =>
      by_cases hv : v = 0
      · simp [hv]
      · simp only [hv, if_false]
        linarith [hstart v hst]
  have h2 : t1 - startOr startTime t1 ≤ t2 - startOr (some (startOr startTime t1)) t2 := by
    by_cases hz : startOr startTime t1 = 0
    · have ht1 : t1 = 0 := by
        unfold startOr at hz
        cases hst : startTime with
        | none => rw [hst] at hz; simpa using hz
        | some v =>
          rw [hst] at hz
          by_cases hv : v = 0
          · simpa [hv] using hz
          · simp [hv] at hz
      rw [hz, ht1]
      simp [startOr]
    · rw [startOr_of_ne_zero _ _ hz]
      linarith
  apply displayed_mono target htarget
  · exact min_le_min (div_le_div_of_nonneg_right h2 (le_of_lt hd)) le_rfl
  · exact min_le_right _ _

/-- The frames run from any `startTime` that is not later than the first
timestamp display non-decreasing values. -/
theorem runFrames_displayed_chain (target : ℤ) (htarget : 0 ≤ target) (ts : List ℚ) :
    ∀ st : Option ℚ, ts.Chain' (· ≤ ·) → (∀ s, st = some s → ∀ t ∈ ts.head?, s ≤ t) →
      ((runFrames target st ts).map CounterFrame.displayed).Chain' (· ≤ ·) := by
  induction ts with
  | nil => intro st _ _; simp [runFrames]
  | cons t1 ts ih =>
    intro st hts hst
    have hst1 : ∀ s, st = some s → s ≤ t1 := fun s hs => hst s hs t1 (by simp)
    simp only [runFrames]
    by_cases hreq : (step target st t1).requestsFrame = true
    · rw [if_pos hreq, List.map_cons, List.chain'_cons']
      have hnext : ∀ s, (step target st t1).startTime = some s → ∀ t ∈ ts.head?, s ≤ t := by
        intro s hs t htmem
        rw [step_startTime] at hs
        have hs' : startOr st t1 = s := by simpa using hs
        have h12 : t1 ≤ t := (List.chain'_cons'.1 hts).1 t htmem
        have hle : startOr st t1 ≤ t1 := by
          unfold startOr
          cases hst0 : st with
          | none => simp
          | some v =>
            by_cases hv : v = 0
            · simp [hv]
            · simpa [hv] using hst1 v hst0
        rw [← hs']
        exact le_trans hle h12
      refine ⟨?_, ih _ (List.chain'_cons'.1 hts).2 hnext⟩
      cases ts with
      | nil => simp [runFrames]
      | cons t2 rest =>
        have h12 : t1 ≤ t2 := (List.chain'_cons'.1 hts).1 t2 (by simp)
        simpa [runFrames] using step_displayed_mono target st t1 t2 htarget hst1 h12
    · simp [hreq]

/-- C6 (as amended): for a counter whose target parses to a number that is not
negative, and frame timestamps in non-decreasing order, the displayed values
are non-decreasing over the whole animation, the final frame included. -/
theorem animateCounter_displayed_monotone (target : ℤ) (ts : List ℚ)
    (htarget : 0 ≤ target) (hts : ts.Chain' (· ≤ ·)) :
    ((animateCounter (some target) ts).map CounterFrame.displayed).Chain' (· ≤ ·) := by
  simp only [animateCounter]
  exact runFrames_displayed_chain target htarget ts none hts (by simp)

/-- C6, worked example: target 1000 with frames at 5000, 5600 and 6200 ms
displays 0, 875, 1000. -/
theorem animateCounter_displayed_monotone_witness :
    (animateCounter (some 1000) [5000, 5600, 6200]).map CounterFrame.displayed = [0, 875, 1000] ∧
    ((animateCounter (some 1000) [5000, 5600, 6200]).map CounterFrame.displayed).Chain' (· ≤ ·) :=
  ⟨by norm_num [animateCounter, runFrames, step, startOr, duration, easeOutCubic],
    animateCounter_displayed_monotone 1000 [5000, 5600, 6200] (by norm_num) (by norm_num)⟩

/-- C6 as stated fails for a negative target: `data-target="-100"` parses to
-100, and the frames at 1000 ms and 1600 ms display 0 and then -88. -/
theorem animateCounter_negative_target_decreases :
    (animateCounter (some (-100)) [1000, 1600]).map CounterFrame.displayed = [0, -88] ∧
    ¬ ((animateCounter (some (-100)) [1000, 1600]).map CounterFrame.displayed).Chain' (· ≤ ·) := by
  have h : (animateCounter (some (-100)) [1000, 1600]).map CounterFrame.displayed = [0, -88] := by
    norm_num [animateCounter, runFrames, step, startOr, duration, easeOutCubic]
  refine ⟨h, ?_⟩
  rw [h]
  norm_num

/-! ### `debounce` -/

/-- No timer fires before its deadline. -/
theorem Debounce.advance_before {α σ β : Type} (func : α → σ → σ × β) (now : ℕ)
    (d : Debounce α) (w : σ) (deadline : ℕ) (args : α)
    (hp : d.PendingOne deadline args) (hnow : now < deadline) :
    Debounce.advance func now (d, w) = (d, w) := by
  obtain ⟨id, _, htm⟩ := hp
  have : ¬ deadline ≤ now := not_le.2 hnow
  simp [Debounce.advance, htm, this]

/-- With no pending timer nothing fires. -/
theorem Debounce.advance_idle {α σ β : Type} (func : α → σ → σ × β) (now : ℕ)
    (d : Debounce α) (w : σ) (hidle : d.timers = []) :
    Debounce.advance func now (d, w) = (d, w) := by
  simp [Debounce.advance, hidle]

/-- Once the deadline is reached the pending timer fires: `func` runs once on
its arguments and nothing stays pending. -/
theorem Debounce.advance_due {α σ β : Type} (func : α → σ → σ × β) (now : ℕ)
    (d : Debounce α) (w : σ) (deadline : ℕ) (args : α)
    (hp : d.PendingOne deadline args) (hnow : deadline ≤ now) :
    (Debounce.advance func now (d, w)).2 = (func args w).1 ∧
      (Debounce.advance func now (d, w)).1.timers = [] := by
  obtain ⟨id, hto, htm⟩ := hp
  simp [Debounce.advance, htm, hnow, Debounce.fireTimer, Debounce.later, clearTimeout, hto]

/-- An invocation while one timer is pending and not yet due replaces it. -/
theorem Debounce.invokeAt_pending {α σ β : Type} (func : α → σ → σ × β) (wait : ℕ)
    (d : Debounce α) (w : σ) (deadline : ℕ) (args : α) (call : ℕ × α)
    (hp : d.PendingOne deadline args) (hnow : call.1 < deadline) :
    (Debounce.invokeAt func wait (d, w) call).2 = w ∧
      (Debounce.invokeAt func wait (d, w) call).1.PendingOne (call.1 + wait) call.2 := by
  have hadv := Debounce.advance_before func call.1 d w deadline args hp hnow
  obtain ⟨id, hto, htm⟩ := hp
  refine ⟨by simp [Debounce.invokeAt, hadv], d.nextId, ?_⟩
  simp [Debounce.invokeAt, hadv, Debounce.executedFunction, clearTimeout, hto, htm]

/-- An invocation on a wrapper with no pending timer schedules one. -/
theorem Debounce.invokeAt_idle {α σ β : Type} (func : α → σ → σ × β) (wait : ℕ)
    (d : Debounce α) (w : σ) (call : ℕ × α) (hidle : d.timers = []) :
    (Debounce.invokeAt func wait (d, w) call).2 = w ∧
      (Debounce.invokeAt func wait (d, w) call).1.PendingOne (call.1 + wait) call.2 := by
  have hadv := Debounce.advance_idle func call.1 d w hidle
  refine ⟨by simp [Debounce.invokeAt, hadv], d.nextId, ?_⟩
  cases hto : d.timeout <;>
    simp [Debounce.invokeAt, hadv, Debounce.executedFunction, clearTimeout, hto, hidle]

/-- Along a burst the world is untouched and exactly the last invocation's
timer is pending. -/
theorem Debounce.runCalls_burst {α σ β : Type} (func : α → σ → σ × β) (wait : ℕ) (w : σ)
    (rest : List (ℕ × α)) :
    ∀ (d : Debounce α) (prev : ℕ × α), d.PendingOne (prev.1 + wait) prev.2 →
      IsBurst wait prev rest →
      (Debounce.runCalls func wait (d, w) rest).2 = w ∧
        (Debounce.runCalls func wait (d, w) rest).1.PendingOne
          (((prev :: rest).getLast (List.cons_ne_nil _ _)).1 + wait)
          ((prev :: rest).getLast (List.cons_ne_nil _ _)).2 := by
  induction rest with
  | nil => intro d prev hp _; exact ⟨rfl, by simpa using hp⟩
  | cons c cs ih =>
    intro d prev hp hb
    obtain ⟨hstep, hrest⟩ := List.chain_cons.1 hb
    obtain ⟨hw, hp'⟩ := Debounce.invokeAt_pending func wait d w (prev.1 + wait) prev.2 c hp hstep.2
    have hsplit : Debounce.invokeAt func wait (d, w) c
        = ((Debounce.invokeAt func wait (d, w) c).1, w) := Prod.ext rfl hw
    have := ih (Debounce.invokeAt func wait (d, w) c).1 c hp' hrest
    simp only [Debounce.runCalls, List.foldl_cons] at this ⊢
    rw [hsplit]
    simpa [List.getLast_cons] using this

/-- C7: for every burst of invocations of a `debounce(func, wait)` wrapper that
has no timer pending at its start, each made less than `wait` ms after the
previous one, exactly one timer is pending afterwards, due `wait` ms after the
last invocation and holding that invocation's arguments; `func` has not run
before that time; once that time is reached `func` has run exactly once, on the
arguments of the last invocation, and nothing is pending any more, so that it
never runs again; and a call of the wrapper evaluates to no value. -/
theorem debounce_burst_executes_last_once {α σ β : Type} (func : α → σ → σ × β) (wait : ℕ)
    (d0 : Debounce α) (w : σ) (first : ℕ × α) (rest : List (ℕ × α))
    (hidle : d0.timers = []) (hburst : IsBurst wait first rest) :
    (Debounce.runCalls func wait (d0, w) (first :: rest)).1.PendingOne
        (((first :: rest).getLast (List.cons_ne_nil _ _)).1 + wait)
        ((first :: rest).getLast (List.cons_ne_nil _ _)).2 ∧
      (∀ now, now < ((first :: rest).getLast (List.cons_ne_nil _ _)).1 + wait →
        (Debounce.advance func now (Debounce.runCalls func wait (d0, w) (first :: rest))).2 = w) ∧
      (∀ now, ((first :: rest).getLast (List.cons_ne_nil _ _)).1 + wait ≤ now →
        (Debounce.advance func now (Debounce.runCalls func wait (d0, w) (first :: rest))).2
            = (func ((first :: rest).getLast (List.cons_ne_nil _ _)).2 w).1 ∧
          (Debounce.advance func now
            (Debounce.runCalls func wait (d0, w) (first :: rest))).1.timers = [] ∧
          ∀ later, Debounce.advance func later
              (Debounce.advance func now (Debounce.runCalls func wait (d0, w) (first :: rest)))
            = Debounce.advance func now (Debounce.runCalls func wait (d0, w) (first :: rest))) ∧
      (∀ (d : Debounce α) (now : ℕ) (args : α),
        (Debounce.executedFunction func wait now args d).2 = none) := by
  obtain ⟨hw1, hp1⟩ := Debounce.invokeAt_idle func wait d0 w first hidle
  have hsplit : Debounce.invokeAt func wait (d0, w) first
      = ((Debounce.invokeAt func wait (d0, w) first).1, w) := Prod.ext rfl hw1
  obtain ⟨hw, hp⟩ := Debounce.runCalls_burst func wait w rest _ first hp1 hburst
  have hrun : Debounce.runCalls func wait (d0, w) (first :: rest)
      = Debounce.runCalls func wait ((Debounce.invokeAt func wait (d0, w) first).1, w) rest := by
    simp only [Debounce.runCalls, List.foldl_cons]
    rw [← hsplit]
  rw [hrun]
  have hst : Debounce.runCalls func wait ((Debounce.invokeAt func wait (d0, w) first).1, w) rest
      = ((Debounce.runCalls func wait ((Debounce.invokeAt func wait (d0, w) first).1, w) rest).1, w) :=
    Prod.ext rfl hw
  refine ⟨hp, ?_, ?_, fun _ _ _ => rfl⟩
  · intro now hnow
    rw [hst, Debounce.advance_before func now _ w _ _ hp hnow]
  · intro now hnow
    rw [hst]
    obtain ⟨h1, h2⟩ := Debounce.advance_due func now _ w _ _ hp hnow
    refine ⟨h1, h2, fun later => ?_⟩
    exact Debounce.advance_idle func later _ _ h2

/-- C7, worked example: three invocations at 0, 100 and 240 ms of a wrapper
with `wait = 150`; at 390 ms `func` has run once, on the last arguments. -/
theorem debounce_burst_executes_last_once_witness :
    (Debounce.advance recordCall 389 (Debounce.runCalls recordCall 150
        (Debounce.init String, []) [(0, "a"), (100, "b"), (240, "c")])).2 = [] ∧
    (Debounce.advance recordCall 390 (Debounce.runCalls recordCall 150
        (Debounce.init String, []) [(0, "a"), (100, "b"), (240, "c")])).2 = ["c"] :=
  have h := debounce_burst_executes_last_once recordCall 150 (Debounce.init String) []
    (0, "a") [(100, "b"), (240, "c")] rfl (by simp [IsBurst])
  ⟨h.2.1 389 (by simp), (h.2.2.1 390 (by simp)).1⟩

/-! ### `rafThrottle` -/

/-- The first invocation on an idle wrapper schedules one frame. -/
theorem Throttle.throttled_idle {α γ : Type} (context : γ) (args : α) (t : Throttle α γ)
    (h : t.Idle) :
    Throttle.throttled context args t =
      { requestId := some t.nextId, lastArgs := some args,
        frames := [(t.nextId, context)], nextId := t.nextId + 1 } := by
  obtain ⟨h1, h2⟩ := h
  simp [Throttle.throttled, h1, h2]

/-- A later invocation only overwrites `lastArgs`. -/
theorem Throttle.throttled_pending {α γ : Type} (context : γ) (args : α) (t : Throttle α γ)
    (id : ℕ) (h : t.requestId = some id) :
    Throttle.throttled context args t = { t with lastArgs := some args } := by
  simp [Throttle.throttled, h]

/-- While a frame is pending, further invocations keep the request and store
the last arguments. -/
theorem Throttle.runCalls_pending {α γ : Type} (rest : List (γ × α)) :
    ∀ (t : Throttle α γ) (id : ℕ) (prev : γ × α), t.requestId = some id →
      t.lastArgs = some prev.2 →
      Throttle.runCalls t rest =
        { t with lastArgs := some ((prev :: rest).getLast (List.cons_ne_nil _ _)).2 } := by
  induction rest with
  | nil =>
    intro t id prev _ hl
    simp [Throttle.runCalls, ← hl]
  | cons c cs ih =>
    intro t id prev h _
    simp only [Throttle.runCalls, List.foldl_cons]
    rw [Throttle.throttled_pending c.1 c.2 t id h]
    have := ih { t with lastArgs := some c.2 } id c h rfl
    simp only [Throttle.runCalls] at this
    rw [this]
    simp [List.getLast_cons]

/-- The frame boundary on a wrapper with one pending request runs the callback
once, with the stored arguments, and leaves the wrapper idle. -/
theorem Throttle.runFrame_one {α γ σ β : Type} (callback : γ → Option α → σ → σ × β)
    (t : Throttle α γ) (w : σ) (id : ℕ) (context : γ) (hf : t.frames = [(id, context)]) :
    Throttle.runFrame callback (t, w) =
      ({ t with requestId := none, frames := [] }, (callback context t.lastArgs w).1) := by
  simp [Throttle.runFrame, hf, Throttle.fireFrame, Throttle.later]

/-- The frame boundary on an idle wrapper does nothing. -/
theorem Throttle.runFrame_idle {α γ σ β : Type} (callback : γ → Option α → σ → σ × β)
    (t : Throttle α γ) (w : σ) (hf : t.frames = []) :
    Throttle.runFrame callback (t, w) = (t, w) := by
  simp [Throttle.runFrame, hf]

/-- Every event keeps the wrapper well formed. -/
theorem Throttle.handle_wellFormed {α γ σ β : Type} (callback : γ → Option α → σ → σ × β)
    (st : Throttle α γ × σ) (e : ThrottleEvent α γ) (h : st.1.WellFormed) :
    (Throttle.handle callback st e).1.WellFormed := by
  cases e with
  | call context args =>
    rcases h with hidle | ⟨id, c, hid, hf⟩
    · right
      refine ⟨st.1.nextId, context, ?_, ?_⟩ <;>
        simp [Throttle.handle, Throttle.throttled_idle context args st.1 hidle]
    · right
      refine ⟨id, c, ?_, ?_⟩ <;>
        simp [Throttle.handle, Throttle.throttled_pending context args st.1 id hid, hid, hf]
  | frame =>
    left
    rcases h with hidle | ⟨id, c, _, hf⟩
    · have : Throttle.runFrame callback st = st := Throttle.runFrame_idle callback st.1 st.2 hidle.2
      simp only [Throttle.handle, this]
      exact hidle
    · have : Throttle.runFrame callback st = _ := Throttle.runFrame_one callback st.1 st.2 id c hf
      simp only [Throttle.handle, this]
      exact ⟨rfl, rfl⟩
  | cancel =>
    left
    rcases h with hidle | ⟨id, c, hid, hf⟩
    · refine ⟨rfl, ?_⟩
      simp [Throttle.handle, Throttle.cancel, cancelAnimationFrame, hidle.1, hidle.2]
    · refine ⟨rfl, ?_⟩
      simp [Throttle.handle, Throttle.cancel, cancelAnimationFrame, hid, hf]

/-- Every reachable state is well formed. -/
theorem Throttle.run_wellFormed {α γ σ β : Type} (callback : γ → Option α → σ → σ × β) (w : σ)
    (events : List (ThrottleEvent α γ)) :
    (Throttle.run callback w events).1.WellFormed := by
  unfold Throttle.run
  induction events using List.reverseRecOn with
  | nil => left; exact ⟨rfl, rfl⟩
  | append_singleton es e ih =>
    rw [List.foldl_append]
    exact Throttle.handle_wellFormed callback _ e ih

/-- C8: for every non-empty sequence of invocations of a `rafThrottle` wrapper
made from idle before the next frame boundary, exactly one frame request is
pending afterwards, the one made by the first invocation, and the later
invocations have only overwritten the stored arguments; when the boundary
fires, the callback runs exactly once, with the context of the first
invocation and the arguments of the last one, the wrapper is idle again, and a
further boundary runs nothing. -/
theorem rafThrottle_burst_one_frame {α γ σ β : Type} (callback : γ → Option α → σ → σ × β)
    (t0 : Throttle α γ) (w : σ) (first : γ × α) (rest : List (γ × α)) (hidle : t0.Idle) :
    Throttle.runCalls t0 (first :: rest) =
        { Throttle.throttled first.1 first.2 t0 with
          lastArgs := some ((first :: rest).getLast (List.cons_ne_nil _ _)).2 } ∧
      (Throttle.runCalls t0 (first :: rest)).requestId = some t0.nextId ∧
      (Throttle.runCalls t0 (first :: rest)).frames = [(t0.nextId, first.1)] ∧
      (Throttle.runFrame callback (Throttle.runCalls t0 (first :: rest), w)).2 =
        (callback first.1 (some ((first :: rest).getLast (List.cons_ne_nil _ _)).2) w).1 ∧
      (Throttle.runFrame callback (Throttle.runCalls t0 (first :: rest), w)).1.Idle ∧
      Throttle.runFrame callback (Throttle.runFrame callback (Throttle.runCalls t0 (first :: rest), w))
        = Throttle.runFrame callback (Throttle.runCalls t0 (first :: rest), w) := by
  have hfirst := Throttle.throttled_idle first.1 first.2 t0 hidle
  have hrun : Throttle.runCalls t0 (first :: rest) =
      { Throttle.throttled first.1 first.2 t0 with
        lastArgs := some ((first :: rest).getLast (List.cons_ne_nil _ _)).2 } := by
    have := Throttle.runCalls_pending rest (Throttle.throttled first.1 first.2 t0) t0.nextId first
      (by rw [hfirst]) (by rw [hfirst])
    simpa [Throttle.runCalls] using this
  have hframes : (Throttle.runCalls t0 (first :: rest)).frames = [(t0.nextId, first.1)] := by
    rw [hrun, hfirst]
  have hone := Throttle.runFrame_one callback (Throttle.runCalls t0 (first :: rest)) w
    t0.nextId first.1 hframes
  refine ⟨hrun, by rw [hrun, hfirst], hframes, ?_, ?_, ?_⟩
  · rw [hone, hrun]
  · rw [hone]
    exact ⟨rfl, rfl⟩
  · rw [hone]
    exact Throttle.runFrame_idle callback _ _ rfl

/-- C8, worked example: three invocations from a fresh wrapper before the frame
boundary; the callback runs once, with the last arguments. -/
theorem rafThrottle_burst_one_frame_witness :
    (Throttle.init String Unit).Idle ∧
    (Throttle.runCalls (Throttle.init String Unit) [((), "a"), ((), "b"), ((), "c")]).frames
      = [(1, ())] ∧
    (Throttle.runFrame recordFrame
      (Throttle.runCalls (Throttle.init String Unit) [((), "a"), ((), "b"), ((), "c")], [])).2
      = [some "c"] :=
  have h := rafThrottle_burst_one_frame recordFrame (Throttle.init String Unit) []
    ((), "a") [((), "b"), ((), "c")] ⟨rfl, rfl⟩
  ⟨⟨rfl, rfl⟩, h.2.2.1, h.2.2.2.1⟩

/-- Cancelling twice is cancelling once, in every state. -/
theorem Throttle.cancel_cancel {α γ : Type} (t : Throttle α γ) :
    Throttle.cancel (Throttle.cancel t) = Throttle.cancel t := by
  simp [Throttle.cancel, cancelAnimationFrame]

/-- Cancelling a well-formed wrapper leaves it idle. -/
theorem Throttle.cancel_idle {α γ : Type} (t : Throttle α γ) (h : t.WellFormed) :
    (Throttle.cancel t).Idle := by
  rcases h with hidle | ⟨id, c, hid, hf⟩
  · exact ⟨rfl, by simp [Throttle.cancel, cancelAnimationFrame, hidle.1, hidle.2]⟩
  · exact ⟨rfl, by simp [Throttle.cancel, cancelAnimationFrame, hid, hf]⟩

/-- C9: in every state a `rafThrottle` wrapper can reach, `cancel` leaves the
wrapper idle with no frame request pending, so that the next frame boundary
does not invoke the callback and the next invocation schedules a fresh frame;
`cancel` after `cancel` is the same as one `cancel`, and `cancel` on an idle
wrapper changes nothing. -/
theorem rafThrottle_cancel {α γ σ β : Type} (callback : γ → Option α → σ → σ × β) (w0 : σ)
    (events : List (ThrottleEvent α γ)) :
    (Throttle.cancel (Throttle.run callback w0 events).1).Idle ∧
      Throttle.runFrame callback
          (Throttle.cancel (Throttle.run callback w0 events).1, (Throttle.run callback w0 events).2)
        = (Throttle.cancel (Throttle.run callback w0 events).1,
            (Throttle.run callback w0 events).2) ∧
      (∀ (context : γ) (args : α),
        (Throttle.throttled context args (Throttle.cancel (Throttle.run callback w0 events).1)).requestId
            = some (Throttle.run callback w0 events).1.nextId ∧
          (Throttle.throttled context args (Throttle.cancel (Throttle.run callback w0 events).1)).frames
            = [((Throttle.run callback w0 events).1.nextId, context)]) ∧
      Throttle.cancel (Throttle.cancel (Throttle.run callback w0 events).1)
        = Throttle.cancel (Throttle.run callback w0 events).1 ∧
      ((Throttle.run callback w0 events).1.Idle →
        Throttle.cancel (Throttle.run callback w0 events).1 = (Throttle.run callback w0 events).1) := by
  have hwf := Throttle.run_wellFormed callback w0 events
  have hidle := Throttle.cancel_idle _ hwf
  refine ⟨hidle, Throttle.runFrame_idle callback _ _ hidle.2, ?_, Throttle.cancel_cancel _, ?_⟩
  · intro context args
    rw [Throttle.throttled_idle context args _ hidle]
    exact ⟨rfl, rfl⟩
  · intro h
    obtain ⟨h1, h2⟩ := h
    cases hst : (Throttle.run callback w0 events).1 with
    | mk requestId lastArgs frames nextId =>
      rw [hst] at h1 h2
      simp only at h1 h2
      subst h1 h2
      rfl

/-- C9, worked example: two invocations, then `cancel`, then a frame boundary:
the callback has not run; a new invocation and a boundary run it once. -/
theorem rafThrottle_example_cancel_then_call :
    (Throttle.run recordFrame [] [.call () "a", .call () "b", .cancel, .frame]).2 = [] ∧
    (Throttle.run recordFrame [] [.call () "a", .call () "b", .cancel, .frame,
      .call () "c", .frame]).2 = [some "c"] ∧
    (Throttle.run recordFrame [] [.call () "a", .cancel, .cancel]).1
      = (Throttle.run recordFrame [] [.call () "a", .cancel]).1 := by
  decide

/-! ### Teardown -/

/-- The wrapper of the sticky component is well formed in every state reached
from a well-formed one. -/
theorem Sticky.wrapper_wellFormed_step (c : Sticky) (e : StickyEvent)
    (h : c.handleScroll.WellFormed) : (c.handle e).handleScroll.WellFormed := by
  cases e with
  | scroll stickyRect stages =>
    by_cases hl : c.scrollListener = true
    · simpa [Sticky.handle, hl, Throttle.handle] using
        Throttle.handle_wellFormed stickyBody (c.handleScroll, c.world) (.call () ()) h
    · simpa [Sticky.handle, hl] using h
  | resize stickyRect stages => simpa [Sticky.handle] using h
  | frame =>
    simpa [Sticky.handle, Throttle.handle] using
      Throttle.handle_wellFormed stickyBody (c.handleScroll, c.world) .frame h
  | teardown =>
    simpa [Sticky.handle, Throttle.handle] using
      Throttle.handle_wellFormed stickyBody (c.handleScroll, c.world) .cancel h

/-- Well-formedness along a run of the sticky component. -/
theorem Sticky.wrapper_wellFormed_run (events : List StickyEvent) :
    ∀ c : Sticky, c.handleScroll.WellFormed → (c.run events).handleScroll.WellFormed := by
  induction events with
  | nil => intro c h; exact h
  | cons e es ih =>
    intro c h
    exact ih (c.handle e) (Sticky.wrapper_wellFormed_step c e h)

/-- A torn-down sticky component stays torn down, and no event runs a pass or
touches an image. -/
theorem Sticky.quiet_sticky_step (c : Sticky) (e : StickyEvent)
    (h : c.Quiet) :
    (c.handle e).Quiet ∧
      (c.handle e).world.images = c.world.images ∧
      (c.handle e).world.passes = c.world.passes := by
  obtain ⟨hl, hidle⟩ := h
  cases e with
  | scroll stickyRect stages => simp [Sticky.handle, hl, Sticky.Quiet, hidle]
  | resize stickyRect stages => simp [Sticky.handle, hl, Sticky.Quiet, hidle]
  | frame =>
    have := Throttle.runFrame_idle stickyBody c.handleScroll c.world hidle.2
    simp [Sticky.handle, this, hl, Sticky.Quiet, hidle]
  | teardown =>
    have hc : Throttle.cancel c.handleScroll = c.handleScroll := by
      obtain ⟨h1, h2⟩ := hidle
      cases hs : c.handleScroll with
      | mk requestId lastArgs frames nextId =>
        rw [hs] at h1 h2
        simp only at h1 h2
        subst h1 h2
        rfl
    simp [Sticky.handle, hc, Sticky.Quiet, hidle]

/-- After its teardown, no sequence of scroll, resize or frame events (nor a
second teardown) makes the sticky image component run a pass or touch an image. -/
theorem sticky_teardown_quiescent (c : Sticky) (hwf : c.handleScroll.WellFormed)
    (events post : List StickyEvent) :
    (((c.run events).handle .teardown).run post).world.images
        = ((c.run events).handle .teardown).world.images ∧
      (((c.run events).handle .teardown).run post).world.passes
        = ((c.run events).handle .teardown).world.passes := by
  have hq : ((c.run events).handle .teardown).Quiet :=
    ⟨rfl, Throttle.cancel_idle _ (Sticky.wrapper_wellFormed_run events c hwf)⟩
  generalize (c.run events).handle .teardown = c1 at hq
  induction post generalizing c1 with
  | nil => exact ⟨rfl, rfl⟩
  | cons e es ih =>
    obtain ⟨hq', h1, h2⟩ := Sticky.quiet_sticky_step c1 e hq
    obtain ⟨h3, h4⟩ := ih (c1.handle e) hq'
    exact ⟨by simpa [Sticky.run] using h3.trans h1, by simpa [Sticky.run] using h4.trans h2⟩

/-- A quiet sub-navigation component stays quiet, and no scroll, resize, timer
or frame event (nor a second teardown) runs a pass or touches a link. -/
theorem Subnav.quiet_subnav_step (c : Subnav) (e : SubnavEvent) (h : c.Quiet)
    (he : e.isClick = false) :
    (c.handle e).Quiet ∧ (c.handle e).world.links = c.world.links ∧
      (c.handle e).world.passes = c.world.passes := by
  obtain ⟨hs, hr, hidle, htm⟩ := h
  cases e with
  | scroll scrollY => simp [Subnav.handle, hs, hr, Subnav.Quiet, hidle, htm]
  | resize now innerHeight header subnav => simp [Subnav.handle, hs, hr, Subnav.Quiet, hidle, htm]
  | timers now =>
    have := Debounce.advance_idle resizeBody now c.handleResize c.world htm
    simp [Subnav.handle, this, hs, hr, Subnav.Quiet, hidle, htm]
  | frame =>
    have := Throttle.runFrame_idle scrollBody c.handleScroll c.world hidle.2
    simp [Subnav.handle, this, hs, hr, Subnav.Quiet, hidle, htm]
  | click i found => simp [SubnavEvent.isClick] at he
  | teardown =>
    have hc : Throttle.cancel c.handleScroll = c.handleScroll := by
      obtain ⟨h1, h2⟩ := hidle
      cases hsc : c.handleScroll with
      | mk requestId lastArgs frames nextId =>
        rw [hsc] at h1 h2
        simp only at h1 h2
        subst h1 h2
        rfl
    simp [Subnav.handle, hc, Subnav.Quiet, hidle, htm]

/-- When no resize timer is pending at teardown, the sub-navigation component
is quiet afterwards: no later scroll, resize, timer or frame event runs a pass
or touches a link. -/
theorem subnav_teardown_quiescent_of_no_timer (c : Subnav) (hwf : c.handleScroll.WellFormed)
    (htm : c.handleResize.timers = []) (post : List SubnavEvent)
    (hpost : ∀ e ∈ post, e.isClick = false) :
    ((c.handle .teardown).run post).world.links = c.world.links ∧
      ((c.handle .teardown).run post).world.passes = c.world.passes := by
  have hq : (c.handle .teardown).Quiet :=
    ⟨rfl, rfl, Throttle.cancel_idle _ hwf, htm⟩
  have hl : (c.handle .teardown).world.links = c.world.links := rfl
  have hp : (c.handle .teardown).world.passes = c.world.passes := rfl
  rw [← hl, ← hp]
  generalize c.handle .teardown = c1 at hq
  clear hl hp
  induction post generalizing c1 with
  | nil => exact ⟨rfl, rfl⟩
  | cons e es ih =>
    obtain ⟨hq', h1, h2⟩ := Subnav.quiet_subnav_step c1 e hq (hpost e (by simp))
    obtain ⟨h3, h4⟩ := ih (fun e' he' => hpost e' (by simp [he'])) (c1.handle e) hq'
    exact ⟨by simpa [Subnav.run] using h3.trans h1, by simpa [Subnav.run] using h4.trans h2⟩

/-- C10 at a teardown made while a resize timer is pending. The component is
initialised; a `resize` event arrives at 0 ms, the window scrolls to 600, and
the teardown is called: the listeners are removed and the pending frame is
cancelled, but the debounce timer is still pending. When it fires at 150 ms a
further `updateActiveLink` pass runs and moves the active link. -/
theorem subnav_teardown_pending_resize_timer_fires :
    initSubnavigation demoPage demoLinks = some demoSubnav ∧
    (demoSubnav.run [.resize 0 800 none none, .scroll 600, .teardown]).scrollListener = false ∧
    (demoSubnav.run [.resize 0 800 none none, .scroll 600, .teardown]).resizeListener = false ∧
    (demoSubnav.run [.resize 0 800 none none, .scroll 600, .teardown]).handleScroll.frames = [] ∧
    (demoSubnav.run [.resize 0 800 none none, .scroll 600, .teardown]).handleResize.timers
      = [⟨1, 150, ()⟩] ∧
    (demoSubnav.run [.resize 0 800 none none, .scroll 600, .teardown]).world.passes = 1 ∧
    (demoSubnav.run [.resize 0 800 none none, .scroll 600, .teardown]).world.links
      = [⟨some "#overview", true, some "location"⟩, ⟨some "#vizyon-misyon", false, none⟩] ∧
    (demoSubnav.run [.resize 0 800 none none, .scroll 600, .teardown, .timers 150]).world.passes
      = 2 ∧
    (demoSubnav.run [.resize 0 800 none none, .scroll 600, .teardown, .timers 150]).world.links
      = [⟨some "#overview", false, none⟩, ⟨some "#vizyon-misyon", true, some "location"⟩] := by
  refine ⟨?_, rfl, rfl, ?_, ?_, rfl, rfl, ?_, ?_⟩
  · norm_num [initSubnavigation, demoPage, demoLinks, demoSubnav, runUpdateActiveLink,
      updateActiveLink, effectiveScrollPos, getLayoutMetrics, heightOr, findActiveSection,
      sectionStep, isCandidate, visibility, markLink]
    decide
  · decide
  · decide
  · simp [Subnav.run, Subnav.handle, demoSubnav, Debounce.executedFunction, Debounce.init,
      Debounce.advance, Debounce.fireTimer, Debounce.later, clearTimeout, resizeBody,
      runUpdateActiveLink]
  · norm_num [Subnav.run, Subnav.handle, demoSubnav, demoPage, Debounce.executedFunction,
      Debounce.init, Debounce.advance, Debounce.fireTimer, Debounce.later, clearTimeout,
      resizeBody, runUpdateActiveLink, updateActiveLink, effectiveScrollPos, getLayoutMetrics,
      heightOr, findActiveSection, sectionStep, isCandidate, visibility, markLink]
    decide

/-- A fresh sticky component has a well-formed wrapper. -/
theorem initStickyIcons_wellFormed (stickyContainer : Option DOMRect) (stages : List StoryStage)
    (images : List StickyImage) (c : Sticky)
    (h : initStickyIcons stickyContainer stages images = some c) :
    c.handleScroll.WellFormed := by
  unfold initStickyIcons at h
  cases stickyContainer with
  | none => simp at h
  | some r =>
    simp only at h
    split at h
    · simp at h
    · cases h
      exact Or.inl ⟨rfl, rfl⟩

/-- A counter component that observes nothing starts no animation. -/
theorem Counters.handle_disconnected (c : Counters) (e : CounterEvent) (h : c.observed = []) :
    (c.handle e).observed = [] ∧ (c.handle e).started = c.started := by
  cases e with
  | visibility entries => simp [Counters.handle, h]
  | teardown => simp [Counters.handle]

/-- After its teardown, no visibility event starts a counter animation. -/
theorem counters_teardown_quiescent (c : Counters) (post : List CounterEvent) :
    ((c.handle .teardown).run post).started = c.started := by
  have hq : (c.handle .teardown).observed = [] := rfl
  have hs : (c.handle .teardown).started = c.started := rfl
  rw [← hs]
  generalize c.handle .teardown = c1 at hq
  clear hs
  induction post generalizing c1 with
  | nil => rfl
  | cons e es ih =>
    obtain ⟨h1, h2⟩ := Counters.handle_disconnected c1 e hq
    have := ih (c1.handle e) h1
    simpa [Counters.run] using this.trans h2

end AboutScript
